import Mathlib

/-!
Verification development for the ws-vless worker: a shallow embedding of the
wire codec (greeting header and Mux.Cool frames), the Mux session engine, the
response-prefixing send paths, the UUID utilities and the UUID provider merge,
together with theorems about them.

Byte buffers are modelled as `List Nat` whose entries are the byte values.
JavaScript reads that yield `undefined` are modelled with `Option`; `DataView`
reads that throw `RangeError` are modelled by explicit `thrown` results.
-/

namespace WsVless

/-- `bytes[i]` on a `Uint8Array`: `undefined` (`none`) when out of range. -/
def getU8 (bytes : List Nat) (i : Nat) : Option Nat :=
  bytes.get? i

/-- `DataView.getUint16(i)` big-endian; `none` models the thrown `RangeError`
when fewer than two bytes remain. -/
def getU16 (bytes : List Nat) (i : Nat) : Option Nat :=
  match bytes.get? i, bytes.get? (i + 1) with
  | some a, some b => some (a * 256 + b)
  | _, _ => none

/-- `DataView.setUint16` big-endian: the two bytes of `n` modulo 2^16. -/
def u16be (n : Nat) : List Nat :=
  [n / 256 % 256, n % 256]

/-- `bytes.slice(a, b)` on a `Uint8Array`/`ArrayBuffer` (clamping, copying). -/
def sliceBytes (bytes : List Nat) (a b : Nat) : List Nat :=
  (bytes.drop a).take (b - a)

/-- `TextDecoder().decode` restricted to the byte-per-character range used by
the protocol (exact for the ASCII addresses this codebase compares against). -/
def decodeBytes (bytes : List Nat) : String :=
  String.mk (bytes.map Char.ofNat)

/-- ASCII lower-casing of one character, the fragment of JavaScript
`toLowerCase` exercised by hex digits and hyphens. -/
def lowerChar (c : Char) : Char :=
  if 65 ≤ c.toNat ∧ c.toNat ≤ 90 then Char.ofNat (c.toNat + 32) else c

/-- ASCII `toLowerCase` on a string. -/
def lowerStr (s : String) : String :=
  String.mk (s.data.map lowerChar)

/-- Substring test on character lists (JavaScript `String.includes`). -/
def subListChars (needle : List Char) : List Char → Bool
  | [] => needle.isEmpty
  | c :: rest => List.isPrefixOf needle (c :: rest) || subListChars needle rest

/-- JavaScript `haystack.includes(needle)`. -/
def strIncludes (haystack needle : String) : Bool :=
  subListChars needle.data haystack.data

end WsVless

namespace WsVless.Uuid

/-! Model of `src/utils/uuid.ts`. -/

/-- One lowercase hexadecimal digit character. -/
def hexDigit (n : Nat) : Char :=
  if n < 10 then Char.ofNat (48 + n) else Char.ofNat (87 + n)

/-- The `byteToHex` table: two lowercase hex characters for a byte value; an
index past the 256-entry table yields `undefined`, concatenated as the string
"undefined". -/
def byteToHex (b : Nat) : List Char :=
  if b < 256 then [hexDigit (b / 16), hexDigit (b % 16)]
  else ['u', 'n', 'd', 'e', 'f', 'i', 'n', 'e', 'd']

/-- Hex-digit test, the character class of the UUID regex (`[0-9a-f]` with the
case-insensitive flag). -/
def isHexChar (c : Char) : Bool :=
  (48 ≤ c.toNat && c.toNat ≤ 57) || (97 ≤ c.toNat && c.toNat ≤ 102) ||
    (65 ≤ c.toNat && c.toNat ≤ 70)

/-- Numeric value of a hex-digit character (`parseInt(_, 16)` per digit). -/
def hexVal (c : Char) : Nat :=
  if 48 ≤ c.toNat && c.toNat ≤ 57 then c.toNat - 48
  else if 97 ≤ c.toNat && c.toNat ≤ 102 then c.toNat - 87
  else c.toNat - 55

/-- `UUID_REGEX` (`8-4-4-4-12` hex groups, case-insensitive) on the character
list of the candidate string. -/
def isValidUUIDList : List Char → Bool
  | a0 :: a1 :: a2 :: a3 :: a4 :: a5 :: a6 :: a7 :: g1 ::
    b0 :: b1 :: b2 :: b3 :: g2 ::
    c0 :: c1 :: c2 :: c3 :: g3 ::
    d0 :: d1 :: d2 :: d3 :: g4 ::
    e0 :: e1 :: e2 :: e3 :: e4 :: e5 :: e6 :: e7 :: e8 :: e9 :: e10 :: e11 :: [] =>
    isHexChar a0 && isHexChar a1 && isHexChar a2 && isHexChar a3 &&
    isHexChar a4 && isHexChar a5 && isHexChar a6 && isHexChar a7 &&
    g1 == '-' &&
    isHexChar b0 && isHexChar b1 && isHexChar b2 && isHexChar b3 &&
    g2 == '-' &&
    isHexChar c0 && isHexChar c1 && isHexChar c2 && isHexChar c3 &&
    g3 == '-' &&
    isHexChar d0 && isHexChar d1 && isHexChar d2 && isHexChar d3 &&
    g4 == '-' &&
    isHexChar e0 && isHexChar e1 && isHexChar e2 && isHexChar e3 &&
    isHexChar e4 && isHexChar e5 && isHexChar e6 && isHexChar e7 &&
    isHexChar e8 && isHexChar e9 && isHexChar e10 && isHexChar e11
  | _ => false

/-- `isValidUUID` (non-strict variant, `UUID_REGEX.test`). -/
def isValidUUID (uuid : String) : Bool :=
  isValidUUIDList uuid.data

/-- `unsafeStringify(arr, offset)`: hex pairs joined with hyphens, lower-cased
(the hex table is already lowercase). -/
def unsafeStringify (arr : List Nat) (offset : Nat := 0) : String :=
  String.mk
    (byteToHex (arr.getD (offset + 0) 0) ++ byteToHex (arr.getD (offset + 1) 0) ++
     byteToHex (arr.getD (offset + 2) 0) ++ byteToHex (arr.getD (offset + 3) 0) ++
     ['-'] ++
     byteToHex (arr.getD (offset + 4) 0) ++ byteToHex (arr.getD (offset + 5) 0) ++
     ['-'] ++
     byteToHex (arr.getD (offset + 6) 0) ++ byteToHex (arr.getD (offset + 7) 0) ++
     ['-'] ++
     byteToHex (arr.getD (offset + 8) 0) ++ byteToHex (arr.getD (offset + 9) 0) ++
     ['-'] ++
     byteToHex (arr.getD (offset + 10) 0) ++ byteToHex (arr.getD (offset + 11) 0) ++
     byteToHex (arr.getD (offset + 12) 0) ++ byteToHex (arr.getD (offset + 13) 0) ++
     byteToHex (arr.getD (offset + 14) 0) ++ byteToHex (arr.getD (offset + 15) 0))

/-- `stringify`: validates the produced string; `none` models the thrown
`TypeError` when the result is not a valid UUID. -/
def stringify (arr : List Nat) (offset : Nat := 0) : Option String :=
  let uuid := unsafeStringify arr offset
  if isValidUUID uuid then some uuid else none

/-- Consecutive hex-character pairs to byte values
(`parseInt(hex.substr(i * 2, 2), 16)`). -/
def hexPairs : List Char → List Nat
  | c1 :: c2 :: rest => (hexVal c1 * 16 + hexVal c2) :: hexPairs rest
  | _ => []

/-- `parse(uuid)`: `none` models the thrown error on an invalid UUID; on a
valid one, hyphens are stripped and the 16 hex pairs are decoded. -/
def parse (uuid : String) : Option (List Nat) :=
  if isValidUUID uuid then
    some (hexPairs (uuid.data.filter (fun c => c ≠ '-')))
  else none

end WsVless.Uuid

namespace WsVless

/-! Model of `src/core/header.ts`. -/

/-- Successful greeting parse (`HeaderResult` with `hasError: false`).
`rawDataIndex` is `none` when the source computes `NaN` (a domain whose
length byte is past the end of the buffer). -/
structure HeaderOk where
  addressRemote : String
  addressType : Nat
  portRemote : Nat
  rawDataIndex : Option Nat
  protocolVersion : Nat
  isUDP : Bool
  isMux : Bool
deriving DecidableEq

/-- Result of `processHeader`: an error object, a thrown exception, or a
parsed greeting. -/
inductive HeaderResult
  | err (message : String)
  | thrown (message : String)
  | ok (h : HeaderOk)
deriving DecidableEq

/-- Result of the header-side `parseAddress`. -/
inductive AddressParseResult
  | err (message : String)
  | thrown (message : String)
  | ok (addressValue : String) (addressType : Nat) (endIndex : Option Nat)
deriving DecidableEq

/-- `isMuxConnection`: the target address is the Mux.Cool sentinel. -/
def isMuxConnection (address : String) : Bool :=
  address == "v1.mux.cool"

/-- The header-side `parseAddress(buffer, startIndex)`.  The Domain branch
returns early (skipping the trailing empty-address check); the IPv6 branch
throws when fewer than 16 bytes remain for its `DataView` reads. -/
def parseAddressHeader (buffer : List Nat) (startIndex : Nat) : AddressParseResult :=
  let addressValueIndex := startIndex + 1
  match getU8 buffer startIndex with
  | some 1 =>
    let addressValue :=
      String.intercalate "."
        ((sliceBytes buffer addressValueIndex (addressValueIndex + 4)).map (fun b => toString b))
    if addressValue = "" then .err "Empty address value for type 1"
    else .ok addressValue 1 (some (addressValueIndex + 4))
  | some 2 =>
    match getU8 buffer addressValueIndex with
    | some addressLength =>
      let domainStartIndex := addressValueIndex + 1
      .ok (decodeBytes (sliceBytes buffer domainStartIndex (domainStartIndex + addressLength)))
        2 (some (domainStartIndex + addressLength))
    | none =>
      -- the length byte is undefined: the slice end is NaN so the decoded
      -- value is empty, and the returned endIndex is NaN
      .ok "" 2 none
  | some 3 =>
    if buffer.length < addressValueIndex + 16 then
      .thrown "RangeError: DataView getUint16 out of bounds"
    else
      let s := sliceBytes buffer addressValueIndex (addressValueIndex + 16)
      let addressValue :=
        String.intercalate ":"
          ((List.range 8).map (fun i => (Nat.toDigits 16 ((getU16 s (2 * i)).getD 0)).asString))
      if addressValue = "" then .err "Empty address value for type 3"
      else .ok addressValue 3 (some (addressValueIndex + 16))
  | other =>
    .err ("Invalid address type: " ++
      (match other with | some b => toString b | none => "undefined"))

/-- `processHeader(buffer, validateUUID)`. -/
def processHeader (buffer : List Nat) (validateUUID : String → Bool) : HeaderResult :=
  if buffer.length < 24 then .err "Invalid data: buffer too short"
  else
    let version := buffer.getD 0 0
    match Uuid.stringify (sliceBytes buffer 1 17) with
    | none => .thrown "TypeError: Stringified UUID is invalid"
    | some receivedUUID =>
      if ¬ validateUUID receivedUUID then .err "Invalid user: UUID not authorized"
      else
        let optLength := buffer.getD 17 0
        let commandIndex := 18 + optLength
        match getU8 buffer commandIndex with
        | some 1 => processHeaderTail buffer version false commandIndex
        | some 2 => processHeaderTail buffer version true commandIndex
        | some 3 =>
          .ok { addressRemote := "mux.cool", addressType := 2, portRemote := 0,
                rawDataIndex := some (commandIndex + 1), protocolVersion := version,
                isUDP := false, isMux := true }
        | other =>
          .err ("Unsupported command: " ++
            (match other with | some b => toString b | none => "undefined") ++
            ". Supported: TCP(0x01), UDP(0x02), MUX(0x03).")
where
  /-- The port and address part of `processHeader` shared by TCP and UDP. -/
  processHeaderTail (buffer : List Nat) (version : Nat) (isUDP : Bool)
      (commandIndex : Nat) : HeaderResult :=
    let portIndex := commandIndex + 1
    match getU16 buffer portIndex with
    | none => .thrown "RangeError: DataView getUint16 out of bounds"
    | some portRemote =>
      let addressTypeIndex := portIndex + 2
      match parseAddressHeader buffer addressTypeIndex with
      | .err m => .err m
      | .thrown m => .thrown m
      | .ok addressValue addressType endIndex =>
        .ok { addressRemote := addressValue, addressType := addressType,
              portRemote := portRemote, rawDataIndex := endIndex,
              protocolVersion := version, isUDP := isUDP,
              isMux := isMuxConnection addressValue }

/-- `createResponseHeader(version)`: the two-byte response prefix. -/
def createResponseHeader (version : List Nat) : List Nat :=
  [version.getD 0 0, 0]

end WsVless

namespace WsVless

/-! Model of `src/core/mux.ts`. -/

/-- Parsed Mux frame metadata. -/
structure MuxMetadata where
  id : Nat
  status : Nat
  option : Nat
  hasData : Bool
deriving DecidableEq

/-- `MuxNewConnection`; fields read from `undefined` indices stay `Option`. -/
structure MuxNewConnection where
  network : Option Nat
  port : Nat
  addressType : Option Nat
  address : String
  globalId : Option (List Nat)
deriving DecidableEq

/-- `MuxUDPAddress` from a UDP Keep frame. -/
structure MuxUDPAddress where
  network : Nat
  port : Nat
  addressType : Option Nat
  address : String
deriving DecidableEq

/-- A parsed Mux frame. -/
structure MuxFrame where
  metadata : MuxMetadata
  newConnection : Option MuxNewConnection
  udpAddress : Option MuxUDPAddress
  data : Option (List Nat)
  frameLength : Nat
deriving DecidableEq

/-- Result of `parseMuxFrame`: an error object (`hasError: true`), a thrown
exception, or a parsed frame. -/
inductive MuxParseResult
  | error (message : String)
  | thrown (message : String)
  | ok (frame : MuxFrame)
deriving DecidableEq

/-- Result of the mux-side `parseAddress`: the address string and consumed
length, where a Domain length byte that is `undefined` makes the length `NaN`
(`none`). -/
inductive MuxAddrResult
  | thrown (message : String)
  | ok (address : String) (length : Option Nat)
deriving DecidableEq

/-- The mux-side `parseAddress(bytes, offset, addressType)`. -/
def parseAddressMux (bytes : List Nat) (offset : Nat) (addressType : Option Nat) :
    MuxAddrResult :=
  match addressType with
  | some 1 =>
    .ok (String.intercalate "." ((sliceBytes bytes offset (offset + 4)).map (fun b => toString b)))
      (some 4)
  | some 2 =>
    match getU8 bytes offset with
    | some domainLength =>
      .ok (decodeBytes (sliceBytes bytes (offset + 1) (offset + 1 + domainLength)))
        (some (1 + domainLength))
    | none => .ok "" none
  | some 3 =>
    if bytes.length < offset + 16 then
      .thrown "RangeError: DataView constructor out of bounds"
    else
      let s := sliceBytes bytes offset (offset + 16)
      .ok (String.intercalate ":"
        ((List.range 8).map (fun i => (Nat.toDigits 16 ((getU16 s (2 * i)).getD 0)).asString)))
        (some 16)
  | _ => .ok "" (some 0)

/-- The trailing data section of `parseMuxFrame` (shared by every status). -/
def muxDataSection (bytes : List Nat) (metadata : MuxMetadata)
    (newConnection : Option MuxNewConnection) (udpAddress : Option MuxUDPAddress)
    (frameLength : Nat) : MuxParseResult :=
  if metadata.hasData then
    if bytes.length < frameLength + 2 then .error "Incomplete Mux data length"
    else
      let dataLength := (getU16 bytes frameLength).getD 0
      if bytes.length < frameLength + 2 + dataLength then .error "Incomplete Mux data"
      else
        .ok { metadata := metadata, newConnection := newConnection, udpAddress := udpAddress,
              data := some (sliceBytes bytes (frameLength + 2) (frameLength + 2 + dataLength)),
              frameLength := frameLength + 2 + dataLength }
  else
    .ok { metadata := metadata, newConnection := newConnection, udpAddress := udpAddress,
          data := none, frameLength := frameLength }

/-- `parseMuxFrame(buffer)` at offset 0 (a nonzero offset forms the view
`bytes.drop offset` first). -/
def parseMuxFrame (bytes : List Nat) : MuxParseResult :=
  if bytes.length < 2 then .error "Buffer too short for Mux frame"
  else
    let metadataLength := (getU16 bytes 0).getD 0
    if bytes.length < 2 + metadataLength then .error "Incomplete Mux metadata"
    else if metadataLength < 4 then .error "Mux metadata too short"
    else
      let id := (getU16 bytes 2).getD 0
      let status := bytes.getD 4 0
      let option := bytes.getD 5 0
      let hasData := option % 2 = 1
      let metadata : MuxMetadata :=
        { id := id, status := status, option := option, hasData := hasData }
      let frameLength := 2 + metadataLength
      match status with
      | 1 =>
        let network := getU8 bytes 6
        match getU16 bytes 7 with
        | none => .thrown "RangeError: DataView getUint16 out of bounds"
        | some port =>
          let addressType := getU8 bytes 9
          match parseAddressMux bytes 10 addressType with
          | .thrown m => .thrown m
          | .ok address addrLen =>
            let globalId : Option (List Nat) :=
              match addrLen with
              | some l =>
                if 4 + 1 + 2 + 1 + l + 8 - 4 ≤ metadataLength then
                  some (sliceBytes bytes (10 + l) (10 + l + 8))
                else none
              | none => none
            muxDataSection bytes metadata
              (some { network := network, port := port, addressType := addressType,
                      address := address, globalId := globalId }) none frameLength
      | 2 =>
        if 4 < metadataLength then
          match getU8 bytes 6 with
          | some 2 =>
            match getU16 bytes 7 with
            | none => .thrown "RangeError: DataView getUint16 out of bounds"
            | some port =>
              let addressType := getU8 bytes 9
              match parseAddressMux bytes 10 addressType with
              | .thrown m => .thrown m
              | .ok address _ =>
                muxDataSection bytes metadata none
                  (some { network := 2, port := port, addressType := addressType,
                          address := address }) frameLength
          | _ => muxDataSection bytes metadata none none frameLength
        else muxDataSection bytes metadata none none frameLength
      | 3 => muxDataSection bytes metadata none none frameLength
      | 4 => muxDataSection bytes metadata none none frameLength
      | _ => .error ("Unknown Mux status: " ++ toString status)

/-- `buildMuxFrame(id, status, option, metadata?, data?)`. -/
def buildMuxFrame (id status option : Nat) (metadata : List Nat := [])
    (data : List Nat := []) : List Nat :=
  let metadataLength := 4 + metadata.length
  u16be metadataLength ++ u16be id ++ [status % 256, option % 256] ++ metadata ++
    (if data.length > 0 then u16be data.length ++ data else [])

/-- `buildMuxKeepFrame(id, data?)`. -/
def buildMuxKeepFrame (id : Nat) (data : List Nat := []) : List Nat :=
  let opt := if data.length > 0 then 1 else 0
  buildMuxFrame id 2 opt [] data

/-- `buildMuxEndFrame(id)`. -/
def buildMuxEndFrame (id : Nat) : List Nat :=
  buildMuxFrame id 3 0

/-- `buildMuxKeepAliveFrame()`, parameterised by the value of
`Math.floor(Math.random() * 65535)` (a number in `[0, 65534]`). -/
def buildMuxKeepAliveFrame (randomId : Nat) : List Nat :=
  buildMuxFrame randomId 4 0

end WsVless

namespace WsVless

/-! Model of `src/handlers/mux-session.ts`.

The session engine is single-threaded and cooperatively scheduled: every
handler runs synchronously up to its next `await`, and the continuations
(connect completion, remote reads, remote close, write failures, DNS replies)
are delivered as further events.  `MuxEvent` enumerates the parsed frames
handled by `handleFrame` together with those asynchronous continuations, and
`muxStep` is the synchronous state transition each of them performs.  Frames
the session sends (via the write queue) and sockets it opens are collected as
`MuxOut` effects.  `webSocket.readyState === OPEN` is modelled as the session
not being closed. -/

/-- The `SubConnection` record (socket and writer handles are represented by
the `ready` flag that guards their use). -/
structure SubConnection where
  address : String
  port : Nat
  network : Option Nat
  closed : Bool
  ready : Bool
  pendingData : List (List Nat)
deriving DecidableEq

/-- Session state: connection table (insertion-ordered, like a JS `Map`),
ended-sessions set (insertion-ordered, like a JS `Set`), counters and flags. -/
structure MuxState where
  connections : List (Nat × SubConnection)
  endedSessions : List Nat
  totalTCPConnections : Nat
  totalUDPConnections : Nat
  limitReached : Bool
  maxSubrequests : Nat
  closed : Bool
deriving DecidableEq

/-- `new MuxSession({ maxSubrequests })`: `options.maxSubrequests || 48`. -/
def initMuxState (maxSubrequestsOption : Option Nat) : MuxState :=
  { connections := [], endedSessions := [],
    totalTCPConnections := 0, totalUDPConnections := 0,
    limitReached := false,
    maxSubrequests :=
      match maxSubrequestsOption with
      | some m => if m = 0 then 48 else m
      | none => 48,
    closed := false }

/-- Events driving the session: the four frame kinds dispatched by
`handleFrame`, and the asynchronous continuations of the sub-connection
handlers. -/
inductive MuxEvent
  | newConn (id : Nat) (network : Option Nat) (address : String) (port : Nat) (data : List Nat)
  | keep (id : Nat) (data : List Nat)
  | endConn (id : Nat) (data : List Nat)
  | keepAlive
  | connectOpened (id : Nat)
  | connectFailed (id : Nat)
  | remoteData (id : Nat) (chunk : List Nat)
  | remoteClosed (id : Nat)
  | writeError (id : Nat)
  | dnsResponse (id : Nat) (result : List Nat)
  | closeSession
deriving DecidableEq

/-- Observable effects: frames enqueued to the WebSocket write queue, and
outbound TCP sockets opened by `connect`. -/
inductive MuxOut
  | endFrame (id : Nat)
  | keepFrame (id : Nat) (data : List Nat)
  | connectTCP (id : Nat) (address : String) (port : Nat)
deriving DecidableEq

/-- `Map.set`: replace in place if present, else append. -/
def mapSet (l : List (Nat × SubConnection)) (k : Nat) (v : SubConnection) :
    List (Nat × SubConnection) :=
  if l.any (fun p => p.1 == k) then l.map (fun p => if p.1 == k then (k, v) else p)
  else l ++ [(k, v)]

/-- `Map.delete`. -/
def mapDelete (l : List (Nat × SubConnection)) (k : Nat) : List (Nat × SubConnection) :=
  l.filter (fun p => p.1 ≠ k)

/-- `this.connections.get(id)`. -/
def lookupConn (s : MuxState) (id : Nat) : Option SubConnection :=
  (s.connections.find? (fun p => p.1 == id)).map (fun p => p.2)

/-- `Set.add`: no effect when the element is present. -/
def setAdd (l : List Nat) (id : Nat) : List Nat :=
  if l.contains id then l else l ++ [id]

/-- `markSessionEnded`: when the set holds `MAX_ENDED_SESSIONS = 256` or more
entries, the oldest half (in insertion order) is evicted before adding. -/
def markSessionEnded (s : MuxState) (id : Nat) : MuxState :=
  let ended :=
    if 256 ≤ s.endedSessions.length then
      s.endedSessions.drop (s.endedSessions.length / 2)
    else s.endedSessions
  { s with endedSessions := setAdd ended id }

/-- `sendEndFrame` (the End frame reaches the write queue only while the
WebSocket is open). -/
def sendEndFrame (s : MuxState) (id : Nat) : List MuxOut :=
  if s.closed then [] else [.endFrame id]

/-- `sendDataToWebSocket`: wraps data in a Keep frame. -/
def sendDataToWebSocket (s : MuxState) (id : Nat) (data : List Nat) : List MuxOut :=
  if s.closed then [] else [.keepFrame id data]

/-- `splitIntoChunks(data, chunkSize)`.  The `chunkSize = 0` guard only keeps
the model total; the source is never called with it. -/
def splitIntoChunks (chunkSize : Nat) (data : List Nat) : List (List Nat) :=
  if _h1 : data = [] then []
  else if _h2 : data.length ≤ chunkSize ∨ chunkSize = 0 then [data]
  else data.take chunkSize :: splitIntoChunks chunkSize (data.drop chunkSize)
termination_by data.length
decreasing_by
  rcases not_or.mp _h2 with ⟨_h3, h4⟩
  simp only [List.length_drop]
  omega

/-- `removeConnection`: drop from the table, then mark the id ended. -/
def removeConnection (s : MuxState) (id : Nat) : MuxState :=
  markSessionEnded { s with connections := mapDelete s.connections id } id

/-- `closeSubConnection`: flag the record closed, release handles, remove. -/
def closeSubConnection (s : MuxState) (id : Nat) : MuxState :=
  match lookupConn s id with
  | none => s
  | some sub =>
    removeConnection { s with connections := mapSet s.connections id { sub with closed := true } } id

/-- `handleNewConnection` plus the synchronous part of the spawned
sub-connection handler (TCP: the `connect` call; UDP: the empty-payload and
port-53 checks). -/
def handleNewConnection (s : MuxState) (id : Nat) (network : Option Nat)
    (address : String) (port : Nat) (data : List Nat) : MuxState × List MuxOut :=
  let isTCP := network == some 1
  let s1 := { s with endedSessions := s.endedSessions.filter (fun j => j ≠ id) }
  if isTCP && (s1.limitReached || s1.maxSubrequests ≤ s1.totalTCPConnections) then
    let s2 := { s1 with limitReached := true }
    let outs := sendEndFrame s2 id
    (markSessionEnded s2 id, outs)
  else
    let s2 :=
      if isTCP then { s1 with totalTCPConnections := s1.totalTCPConnections + 1 }
      else { s1 with totalUDPConnections := s1.totalUDPConnections + 1 }
    let sub : SubConnection :=
      { address := address, port := port, network := network,
        closed := false, ready := false, pendingData := [] }
    let s3 := { s2 with connections := mapSet s2.connections id sub }
    if isTCP then (s3, [.connectTCP id address port])
    else if data.length = 0 then (s3, [])
    else if port ≠ 53 then
      let outs := sendEndFrame s3 id
      (removeConnection s3 id, outs)
    else (s3, [])

/-- `handleKeepConnection` (successful socket writes leave the state alone; a
failing write surfaces later as a `writeError` event; a UDP payload starts a
DNS query answered by a `dnsResponse` event). -/
def handleKeepConnection (s : MuxState) (id : Nat) (data : List Nat) :
    MuxState × List MuxOut :=
  match lookupConn s id with
  | none =>
    if s.endedSessions.contains id then (s, [])
    else
      let s1 := markSessionEnded s id
      (s1, sendEndFrame s1 id)
  | some sub =>
    if sub.closed then (s, [])
    else if data.length ≠ 0 && sub.network == some 1 && !sub.ready then
      ({ s with connections :=
          mapSet s.connections id { sub with pendingData := sub.pendingData ++ [data] } }, [])
    else (s, [])

/-- `handleEndConnection` (the optional trailing payload goes to the socket,
not to the WebSocket, so it produces no observable frame). -/
def handleEndConnection (s : MuxState) (id : Nat) : MuxState × List MuxOut :=
  match lookupConn s id with
  | none => (markSessionEnded s id, [])
  | some _ => (closeSubConnection s id, [])

/-- One synchronous transition of the session. -/
def muxStep (s : MuxState) (e : MuxEvent) : MuxState × List MuxOut :=
  match e with
  | .newConn id network address port data =>
    if s.closed then (s, []) else handleNewConnection s id network address port data
  | .keep id data =>
    if s.closed then (s, []) else handleKeepConnection s id data
  | .endConn id _ =>
    if s.closed then (s, []) else handleEndConnection s id
  | .keepAlive => (s, [])
  | .connectOpened id =>
    match lookupConn s id with
    | some sub =>
      ({ s with connections := mapSet s.connections id { sub with ready := true, pendingData := [] } }, [])
    | none => (s, [])
  | .connectFailed id =>
    let outs := sendEndFrame s id
    (removeConnection s id, outs)
  | .remoteData id chunk =>
    if 8192 < chunk.length then
      (s, ((splitIntoChunks 8192 chunk).map (fun c => sendDataToWebSocket s id c)).flatten)
    else (s, sendDataToWebSocket s id chunk)
  | .remoteClosed id =>
    let outs := sendEndFrame s id
    (removeConnection s id, outs)
  | .writeError id => (closeSubConnection s id, [])
  | .dnsResponse id result => (s, sendDataToWebSocket s id result)
  | .closeSession =>
    if s.closed then (s, [])
    else ({ s with closed := true, connections := [], endedSessions := [] }, [])

/-- Run a sequence of events, collecting the emitted effects. -/
def muxRun (s : MuxState) : List MuxEvent → MuxState × List MuxOut
  | [] => (s, [])
  | e :: rest =>
    let (s1, outs) := muxStep s e
    let (s2, rest2) := muxRun s1 rest
    (s2, outs ++ rest2)

/-- Number of End frames for `id` in an effect list. -/
def countEnds (id : Nat) (outs : List MuxOut) : Nat :=
  (outs.filter (fun o => match o with | .endFrame j => j == id | _ => false)).length

/-- Number of opened sockets in an effect list. -/
def countConnects (outs : List MuxOut) : Nat :=
  (outs.filter (fun o => match o with | .connectTCP .. => true | _ => false)).length

end WsVless

namespace WsVless

/-! Model of the `WriteQueue` class (`src/handlers/mux-session.ts`), of
`remoteSocketToWS` (the TCP bridge) and of `handleUDPOutBound`
(`src/handlers/udp.ts`): the three server-to-client send paths.  Each model
fixes the WebSocket in the open state; a non-open socket sends nothing at all
(the write path stops), so the prefix claims are about the open path. -/

/-- `WriteQueue` fields (the `processing` flag only blocks re-entrancy, which
cannot occur in the synchronous drain). -/
structure WriteQueueState where
  queue : List (List Nat)
  head : Nat
  headerSent : Bool
deriving DecidableEq

/-- A fresh queue. -/
def wqInit : WriteQueueState :=
  { queue := [], head := 0, headerSent := false }

/-- The send loop of `processQueue`: each dequeued item is sent, the first
ever send with the response header concatenated in front. -/
def wqDrainList (responseHeader : List Nat) (headerSent : Bool) :
    List (List Nat) → Bool × List (List Nat)
  | [] => (headerSent, [])
  | d :: rest =>
    let msg := if headerSent then d else responseHeader ++ d
    let (hs, msgs) := wqDrainList responseHeader true rest
    (hs, msg :: msgs)

/-- `processQueue`: drain from `head`, then compact when the head index has
passed 64. -/
def wqProcessQueue (responseHeader : List Nat) (s : WriteQueueState) :
    WriteQueueState × List (List Nat) :=
  let (hs, msgs) := wqDrainList responseHeader s.headerSent (s.queue.drop s.head)
  let newHead := s.queue.length
  if 64 < newHead then ({ queue := [], head := 0, headerSent := hs }, msgs)
  else ({ s with head := newHead, headerSent := hs }, msgs)

/-- `enqueue`: reject when the effective queue length reaches
`MAX_WRITE_QUEUE = 100`, else push and process.  Returns the accepted flag. -/
def wqEnqueue (responseHeader : List Nat) (s : WriteQueueState) (data : List Nat) :
    WriteQueueState × List (List Nat) × Bool :=
  if 100 ≤ s.queue.length - s.head then (s, [], false)
  else
    let (s1, msgs) := wqProcessQueue responseHeader { s with queue := s.queue ++ [data] }
    (s1, msgs, true)

/-- Enqueue a sequence of frames, collecting every sent message. -/
def wqEnqueueAll (responseHeader : List Nat) (s : WriteQueueState) :
    List (List Nat) → WriteQueueState × List (List Nat)
  | [] => (s, [])
  | f :: fs =>
    let (s1, msgs, _) := wqEnqueue responseHeader s f
    let (s2, rest) := wqEnqueueAll responseHeader s1 fs
    (s2, msgs ++ rest)

/-- `remoteSocketToWS`: the messages sent for the chunks read from the remote
socket; `header` starts as the response header and is cleared after the first
send. -/
def remoteSocketToWS (header : Option (List Nat)) : List (List Nat) → List (List Nat)
  | [] => []
  | chunk :: rest =>
    match header with
    | some h => (h ++ chunk) :: remoteSocketToWS none rest
    | none => chunk :: remoteSocketToWS none rest

/-- The 2-byte length field `[(udpSize >> 8) & 0xff, udpSize & 0xff]`. -/
def udpSizeBuffer (udpSize : Nat) : List Nat :=
  [udpSize / 256 % 256, udpSize % 256]

/-- `handleUDPOutBound` response loop: every DoH result is sent
length-prefixed, the first one with the response header in front
(`isVlessHeaderSent`). -/
def udpSends (vlessResponseHeader : List Nat) (isVlessHeaderSent : Bool) :
    List (List Nat) → List (List Nat)
  | [] => []
  | r :: rest =>
    if isVlessHeaderSent then
      (udpSizeBuffer r.length ++ r) :: udpSends vlessResponseHeader true rest
    else
      (vlessResponseHeader ++ udpSizeBuffer r.length ++ r) :: udpSends vlessResponseHeader true rest

end WsVless

namespace WsVless

/-! Model of `UUIDProviderManager` (provider registration and merge). -/

/-- A registered provider: its name, priority, and the outcome of
`fetchUUIDs()` (`none` when the fetch rejected; the in-flight `catch` turns
that into an empty list before the merge). -/
structure Provider where
  name : String
  priority : Int
  fetchOutcome : Option (List String)
deriving DecidableEq

/-- The per-provider settle-all result: a failed fetch contributes `[]`. -/
def resultOrEmpty (p : Provider) : List String :=
  p.fetchOutcome.getD []

/-- `register`: `providers.push(p)` followed by a stable ascending sort by
priority.  On the sorted list the manager maintains, this places `p` after the
existing entries of equal priority, i.e. an ordered insertion. -/
def insertByPriority (p : Provider) : List Provider → List Provider
  | [] => [p]
  | q :: qs => if q.priority ≤ p.priority then q :: insertByPriority p qs else p :: q :: qs

/-- The provider list after registering `ps` in order on a fresh manager. -/
def registerAllProviders (ps : List Provider) : List Provider :=
  ps.foldl (fun acc p => insertByPriority p acc) []

/-- `uuidMap[k]` (`Record<string, string>` lookup, insertion-ordered). -/
def lookupAssoc (m : List (String × String)) (k : String) : Option String :=
  (m.find? (fun e => e.1 == k)).map (fun e => e.2)

/-- `uuidMap[k] = v` when the key already exists. -/
def setAssoc (m : List (String × String)) (k v : String) : List (String × String) :=
  if m.any (fun e => e.1 == k) then m.map (fun e => if e.1 == k then (k, v) else e)
  else m ++ [(k, v)]

/-- One UUID's write during the merge: the UUID is lower-cased and written
only when `!uuidMap[normalizedUUID]`, i.e. when the key is missing or (being
falsy) maps to the empty string. -/
def mergeOne (m : List (String × String)) (providerName u : String) :
    List (String × String) :=
  let normalizedUUID := lowerStr u
  match lookupAssoc m normalizedUUID with
  | none => m ++ [(normalizedUUID, providerName)]
  | some v => if v = "" then setAssoc m normalizedUUID providerName else m

/-- One provider's contribution to the merge. -/
def mergeStep (m : List (String × String)) (providerName : String)
    (uuids : List String) : List (String × String) :=
  uuids.foldl (fun acc u => mergeOne acc providerName u) m

/-- `fetchFromProviders`: settle-all over the providers (in the manager's
priority order), then fold the per-provider lists into the merged map. -/
def fetchFromProviders (providers : List Provider) : List (String × String) :=
  providers.foldl (fun m p => mergeStep m p.name (resultOrEmpty p)) []

end WsVless
namespace WsVless

lemma remoteSocketToWS_none (chunks : List (List Nat)) :
    remoteSocketToWS none chunks = chunks := by
  induction chunks with
  | nil => rfl
  | cons c rest ih => simp [remoteSocketToWS, ih]

lemma udpSends_sent (h : List Nat) (results : List (List Nat)) :
    udpSends h true results = results.map (fun x => udpSizeBuffer x.length ++ x) := by
  induction results with
  | nil => rfl
  | cons r rest ih => simp [udpSends, ih]

lemma wqEnqueue_step (h f : List Nat) (s : WriteQueueState)
    (hinv : s.head = s.queue.length) :
    wqEnqueue h s f =
      (if 64 < s.queue.length + 1 then
         ({ queue := [], head := 0, headerSent := true } : WriteQueueState)
       else { queue := s.queue ++ [f], head := s.queue.length + 1, headerSent := true },
       [if s.headerSent then f else h ++ f], true) := by
  unfold wqEnqueue
  rw [if_neg (by omega)]
  unfold wqProcessQueue
  simp only [hinv]
  rw [show (s.queue ++ [f]).drop s.queue.length = [f] from by simp]
  unfold wqDrainList
  unfold wqDrainList
  simp only [List.length_append, List.length_cons, List.length_nil]
  split <;> rfl

lemma wqEnqueueAll_msgs (h : List Nat) (s : WriteQueueState)
    (hinv : s.head = s.queue.length) (hsent : s.headerSent = true) :
    ∀ frames, (wqEnqueueAll h s frames).2 = frames := by
  intro frames
  induction frames generalizing s with
  | nil => rfl
  | cons f fs ih =>
    unfold wqEnqueueAll
    rw [wqEnqueue_step h f s hinv]
    simp only [hsent, if_true]
    split
    · simp [ih { queue := [], head := 0, headerSent := true } rfl rfl]
    · simp [ih { queue := s.queue ++ [f], head := s.queue.length + 1, headerSent := true }
        (by simp) rfl]

/-- C3: response-prefix invariant.  In each of the three send paths — the Mux
write queue, the TCP remote-to-WebSocket bridge, and the UDP/DNS responder —
exactly the first WebSocket message carries the two-byte response header
prepended, and no later message carries it again; hence the prefix is sent at
most once and strictly before any other server-to-client bytes. -/
theorem c3_response_header_first_only :
    (∀ (responseHeader : List Nat) (frames : List (List Nat)),
      (wqEnqueueAll responseHeader wqInit frames).2 =
        match frames with
        | [] => []
        | f :: fs => (responseHeader ++ f) :: fs) ∧
    (∀ (responseHeader : List Nat) (chunks : List (List Nat)),
      remoteSocketToWS (some responseHeader) chunks =
        match chunks with
        | [] => []
        | c :: cs => (responseHeader ++ c) :: cs) ∧
    (∀ (responseHeader : List Nat) (results : List (List Nat)),
      udpSends responseHeader false results =
        match results with
        | [] => []
        | r :: rs => (responseHeader ++ udpSizeBuffer r.length ++ r) ::
            rs.map (fun x => udpSizeBuffer x.length ++ x)) := by
  refine ⟨?_, ?_, ?_⟩
  · intro h frames
    cases frames with
    | nil => rfl
    | cons f fs =>
      show (wqEnqueueAll h wqInit (f :: fs)).2 = _
      unfold wqEnqueueAll
      rw [wqEnqueue_step h f wqInit rfl]
      simp only [wqInit]
      norm_num
      rw [wqEnqueueAll_msgs h _ (by simp) rfl]
  · intro h chunks
    cases chunks with
    | nil => rfl
    | cons c cs => simp [remoteSocketToWS, remoteSocketToWS_none]
  · intro h results
    cases results with
    | nil => rfl
    | cons r rs => simp [udpSends, udpSends_sent]

end WsVless
namespace WsVless

lemma markSessionEnded_totalTCP (s : MuxState) (id : Nat) :
    (markSessionEnded s id).totalTCPConnections = s.totalTCPConnections := rfl

lemma markSessionEnded_limit (s : MuxState) (id : Nat) :
    (markSessionEnded s id).limitReached = s.limitReached := rfl

lemma markSessionEnded_max (s : MuxState) (id : Nat) :
    (markSessionEnded s id).maxSubrequests = s.maxSubrequests := rfl

lemma markSessionEnded_connections (s : MuxState) (id : Nat) :
    (markSessionEnded s id).connections = s.connections := rfl

lemma removeConnection_totalTCP (s : MuxState) (id : Nat) :
    (removeConnection s id).totalTCPConnections = s.totalTCPConnections := rfl

lemma removeConnection_limit (s : MuxState) (id : Nat) :
    (removeConnection s id).limitReached = s.limitReached := rfl

lemma removeConnection_max (s : MuxState) (id : Nat) :
    (removeConnection s id).maxSubrequests = s.maxSubrequests := rfl

lemma closeSubConnection_totalTCP (s : MuxState) (id : Nat) :
    (closeSubConnection s id).totalTCPConnections = s.totalTCPConnections := by
  unfold closeSubConnection
  cases lookupConn s id <;> rfl

lemma closeSubConnection_limit (s : MuxState) (id : Nat) :
    (closeSubConnection s id).limitReached = s.limitReached := by
  unfold closeSubConnection
  cases lookupConn s id <;> rfl

lemma closeSubConnection_max (s : MuxState) (id : Nat) :
    (closeSubConnection s id).maxSubrequests = s.maxSubrequests := by
  unfold closeSubConnection
  cases lookupConn s id <;> rfl

lemma handleNewConnection_stats (s : MuxState) (id : Nat) (network : Option Nat)
    (address : String) (port : Nat) (data : List Nat) :
    (handleNewConnection s id network address port data).1.maxSubrequests = s.maxSubrequests ∧
    (s.limitReached = true →
      (handleNewConnection s id network address port data).1.limitReached = true) ∧
    (s.totalTCPConnections ≤ s.maxSubrequests →
      (handleNewConnection s id network address port data).1.totalTCPConnections ≤
        s.maxSubrequests) := by
  cases hn : (network == some 1) <;>
  cases hl : s.limitReached <;>
  by_cases hc : s.maxSubrequests ≤ s.totalTCPConnections <;>
  by_cases hd : data.length = 0 <;>
  by_cases hp : port = 53 <;>
    simp [handleNewConnection, markSessionEnded, sendEndFrame, removeConnection,
      hn, hl, hc, hd, hp] <;>
    omega



lemma muxStep_stats (s : MuxState) (e : MuxEvent) :
    (muxStep s e).1.maxSubrequests = s.maxSubrequests ∧
    (s.limitReached = true → (muxStep s e).1.limitReached = true) ∧
    (s.totalTCPConnections ≤ s.maxSubrequests →
      (muxStep s e).1.totalTCPConnections ≤ s.maxSubrequests) := by
  cases e with
  | newConn id network address port data =>
    by_cases hc : s.closed = true
    · simp [muxStep, hc]
    · simp only [muxStep, if_neg hc]
      exact handleNewConnection_stats s id network address port data
  | keep id data =>
    by_cases hc : s.closed = true
    · simp [muxStep, hc]
    · cases hfind : lookupConn s id with
      | none =>
        simp only [muxStep, if_neg hc, handleKeepConnection, hfind]
        split <;> exact ⟨rfl, fun h => h, fun h => h⟩
      | some sub =>
        by_cases hcl : sub.closed = true
        · simp [muxStep, hc, handleKeepConnection, hfind, hcl]
        · simp only [muxStep, if_neg hc, handleKeepConnection, hfind, if_neg hcl]
          split <;> exact ⟨rfl, fun h => h, fun h => h⟩
  | endConn id data =>
    by_cases hc : s.closed = true
    · simp [muxStep, hc]
    · cases hfind : lookupConn s id with
      | none =>
        simp only [muxStep, if_neg hc, handleEndConnection, hfind]
        exact ⟨rfl, fun h => h, fun h => h⟩
      | some sub =>
        simp only [muxStep, if_neg hc, handleEndConnection, hfind]
        exact ⟨closeSubConnection_max s id, fun h => (closeSubConnection_limit s id).trans h,
          fun h => le_trans (le_of_eq (closeSubConnection_totalTCP s id)) h⟩
  | keepAlive => exact ⟨rfl, fun h => h, fun h => h⟩
  | connectOpened id =>
    cases hfind : lookupConn s id <;>
      simp [muxStep, hfind]
  | connectFailed id => exact ⟨rfl, fun h => h, fun h => h⟩
  | remoteData id chunk =>
    simp only [muxStep]
    split <;> exact ⟨rfl, fun h => h, fun h => h⟩
  | remoteClosed id => exact ⟨rfl, fun h => h, fun h => h⟩
  | writeError id =>
    exact ⟨closeSubConnection_max s id, fun h => (closeSubConnection_limit s id).trans h,
      fun h => (closeSubConnection_totalTCP s id).le.trans h⟩
  | dnsResponse id result => exact ⟨rfl, fun h => h, fun h => h⟩
  | closeSession =>
    by_cases hc : s.closed = true
    · simp [muxStep, hc]
    · simp [muxStep, hc]

lemma muxRun_stats (s : MuxState) (evs : List MuxEvent) :
    (muxRun s evs).1.maxSubrequests = s.maxSubrequests ∧
    (s.limitReached = true → (muxRun s evs).1.limitReached = true) ∧
    (s.totalTCPConnections ≤ s.maxSubrequests →
      (muxRun s evs).1.totalTCPConnections ≤ s.maxSubrequests) := by
  induction evs generalizing s with
  | nil => exact ⟨rfl, fun h => h, fun h => h⟩
  | cons e rest ih =>
    have hstep := muxStep_stats s e
    have hrest := ih (muxStep s e).1
    simp only [muxRun]
    refine ⟨hrest.1.trans hstep.1, fun h => hrest.2.1 (hstep.2.1 h), fun h => ?_⟩
    have := hrest.2.2 (hstep.1 ▸ hstep.2.2 h)
    exact hstep.1 ▸ this


lemma setAdd_mem_self (l : List Nat) (id : Nat) : id ∈ setAdd l id := by
  unfold setAdd
  split
  · rename_i h
    exact List.mem_of_elem_eq_true h
  · simp

lemma setAdd_contains_self (l : List Nat) (id : Nat) : (setAdd l id).contains id = true := by
  unfold setAdd
  split
  · assumption
  · simp

lemma handleNewConnection_reject (s : MuxState) (id : Nat) (address : String)
    (port : Nat) (data : List Nat) (hc : s.closed = false)
    (hrej : s.limitReached = true ∨ s.maxSubrequests ≤ s.totalTCPConnections) :
    (muxStep s (.newConn id (some 1) address port data)).1.limitReached = true ∧
    (muxStep s (.newConn id (some 1) address port data)).1.connections = s.connections ∧
    (muxStep s (.newConn id (some 1) address port data)).1.endedSessions.contains id = true ∧
    (muxStep s (.newConn id (some 1) address port data)).2 = [.endFrame id] := by
  have hguard :
      ((some 1 == some 1) &&
        (s.limitReached || decide (s.maxSubrequests ≤ s.totalTCPConnections))) = true := by
    rcases hrej with h | h <;> simp [h]
  simp only [muxStep, hc, Bool.false_eq_true, if_false, handleNewConnection]
  simp [hguard, hrej, markSessionEnded_limit, markSessionEnded_connections, sendEndFrame,
    markSessionEnded, hc, setAdd_mem_self]

/-- The 49 TCP New frames of the budget boundary scenario (ids 0 through 48). -/
def evs49 : List MuxEvent :=
  (List.range 49).map (fun i => MuxEvent.newConn i (some 1) "h" 80 [])



set_option maxRecDepth 10000

/-- C2: sub-request budget invariant.  From a fresh session,
`totalTCPConnections` never exceeds `maxSubrequests`; `limitReached` is sticky
for the rest of the session; a TCP New frame arriving while `limitReached` is
set or the counter has reached the budget sets `limitReached`, leaves the
connection table untouched (no record, no socket), marks the id ended, and
answers with exactly one End frame; with the default budget 48 the 49th TCP
New leaves the counter at 48. -/
theorem c2_subrequest_budget :
    (∀ (maxOpt : Option Nat) (evs : List MuxEvent),
      (muxRun (initMuxState maxOpt) evs).1.totalTCPConnections ≤
        (muxRun (initMuxState maxOpt) evs).1.maxSubrequests) ∧
    (∀ (s : MuxState) (evs : List MuxEvent),
      s.limitReached = true → (muxRun s evs).1.limitReached = true) ∧
    (∀ (s : MuxState) (id : Nat) (address : String) (port : Nat) (data : List Nat),
      s.closed = false →
      s.limitReached = true ∨ s.maxSubrequests ≤ s.totalTCPConnections →
      (muxStep s (.newConn id (some 1) address port data)).1.limitReached = true ∧
      (muxStep s (.newConn id (some 1) address port data)).1.connections = s.connections ∧
      (muxStep s (.newConn id (some 1) address port data)).1.endedSessions.contains id = true ∧
      (muxStep s (.newConn id (some 1) address port data)).2 = [.endFrame id]) ∧
    ((muxRun (initMuxState none) evs49).1.totalTCPConnections = 48 ∧
      (muxRun (initMuxState none) evs49).1.limitReached = true ∧
      countEnds 48 (muxRun (initMuxState none) evs49).2 = 1 ∧
      countConnects (muxRun (initMuxState none) evs49).2 = 48) := by
  refine ⟨?_, ?_, ?_, ?_, ?_, ?_, ?_⟩
  · intro maxOpt evs
    have h := muxRun_stats (initMuxState maxOpt) evs
    rw [h.1]
    exact h.2.2 (Nat.zero_le _)
  · intro s evs h
    exact (muxRun_stats s evs).2.1 h
  · intro s id address port data hc hrej
    exact handleNewConnection_reject s id address port data hc hrej
  · decide
  · decide
  · decide
  · decide

/-- A session state at the budget: 48 TCP sub-connections already created. -/
def s48 : MuxState :=
  { connections := [], endedSessions := [], totalTCPConnections := 48,
    totalUDPConnections := 0, limitReached := false, maxSubrequests := 48,
    closed := false }

/-- Witness for the budget theorem at a concrete over-budget state. -/
theorem c2_subrequest_budget_witness :
    (muxStep s48 (.newConn 5 (some 1) "example.com" 443 [])).1.limitReached = true ∧
    (muxStep s48 (.newConn 5 (some 1) "example.com" 443 [])).2 = [.endFrame 5] := by
  have h := c2_subrequest_budget.2.2.1 s48 5 "example.com" 443 [] rfl (Or.inr (by decide))
  exact ⟨h.1, h.2.2.2⟩

end WsVless
namespace WsVless

lemma setAdd_mem (l : List Nat) (id X : Nat) (h : X ∈ l) : X ∈ setAdd l id := by
  unfold setAdd
  split
  · exact h
  · exact List.mem_append_left _ h

lemma setAdd_length (l : List Nat) (id : Nat) : (setAdd l id).length ≤ l.length + 1 := by
  unfold setAdd
  split
  · omega
  · simp

lemma mem_filter_ne (l : List Nat) (id X : Nat) (hx : X ∈ l) (h : X ≠ id) :
    X ∈ l.filter (fun j => j ≠ id) := by
  rw [List.mem_filter]
  exact ⟨hx, by simp [h]⟩

lemma countEnds_append (X : Nat) (a b : List MuxOut) :
    countEnds X (a ++ b) = countEnds X a + countEnds X b := by
  simp [countEnds, List.filter_append]

lemma countEnds_sendEnd_ne (s : MuxState) (id X : Nat) (h : id ≠ X) :
    countEnds X (sendEndFrame s id) = 0 := by
  unfold sendEndFrame
  split
  · rfl
  · simp [countEnds, h]

lemma countEnds_sendData (s : MuxState) (id X : Nat) (c : List Nat) :
    countEnds X (sendDataToWebSocket s id c) = 0 := by
  unfold sendDataToWebSocket
  split <;> rfl

lemma countEnds_flatten_sendData (s : MuxState) (id X : Nat) (ls : List (List Nat)) :
    countEnds X ((ls.map (fun c => sendDataToWebSocket s id c)).flatten) = 0 := by
  induction ls with
  | nil => rfl
  | cons c rest ih =>
    simp only [List.map_cons, List.flatten_cons, countEnds_append, ih,
      countEnds_sendData]

lemma markSessionEnded_eq (s : MuxState) (id : Nat)
    (hlen : s.endedSessions.length < 256) :
    (markSessionEnded s id).endedSessions = setAdd s.endedSessions id := by
  unfold markSessionEnded
  rw [if_neg (by omega)]

lemma markSessionEnded_len_le (s : MuxState) (id : Nat)
    (hlen : s.endedSessions.length < 256) :
    (markSessionEnded s id).endedSessions.length ≤ s.endedSessions.length + 1 := by
  rw [markSessionEnded_eq s id hlen]
  exact setAdd_length _ _

lemma markSessionEnded_mem_len (s : MuxState) (id X : Nat)
    (h : X ∈ s.endedSessions) (hlen : s.endedSessions.length < 256) :
    X ∈ (markSessionEnded s id).endedSessions ∧
    (markSessionEnded s id).endedSessions.length ≤ s.endedSessions.length + 1 := by
  rw [markSessionEnded_eq s id hlen]
  exact ⟨setAdd_mem _ _ _ h, setAdd_length _ _⟩



set_option maxHeartbeats 1000000 in
lemma handleNewConnection_c6 (s : MuxState) (id : Nat) (network : Option Nat)
    (address : String) (port : Nat) (data : List Nat) (X : Nat)
    (hx : X ∈ s.endedSessions) (hne : id ≠ X)
    (hlen : s.endedSessions.length < 256) :
    (X ∈ (handleNewConnection s id network address port data).1.endedSessions) ∧
    countEnds X (handleNewConnection s id network address port data).2 = 0 ∧
    (handleNewConnection s id network address port data).1.endedSessions.length ≤
      s.endedSessions.length + 1 ∧
    (handleNewConnection s id network address port data).1.closed = s.closed := by
  have hfl : (s.endedSessions.filter (fun j => j ≠ id)).length ≤ s.endedSessions.length :=
    List.length_filter_le _ _
  have hmf : X ∈ s.endedSessions.filter (fun j => j ≠ id) :=
    mem_filter_ne _ _ _ hx (fun h => hne h.symm)
  cases hn : (network == some 1) <;>
  cases hl : s.limitReached <;>
  by_cases hc : s.maxSubrequests ≤ s.totalTCPConnections <;>
  by_cases hd : data.length = 0 <;>
  by_cases hp : port = 53 <;>
    simp only [handleNewConnection, hn, hl, hc, hd, hp, Bool.false_and, Bool.true_and,
      Bool.false_or, Bool.true_or, Bool.or_false, Bool.and_false, Bool.and_true,
      decide_eq_true_eq, if_true, if_false, decide_True, decide_False,
      Bool.false_eq_true, removeConnection, markSessionEnded, setAdd,
      sendEndFrame] <;>
    (try split_ifs) <;>
    simp_all [countEnds, List.mem_filter, hne, Ne.symm hne] <;>
    omega



/-- Trace events that reference `X` only through Keep or End frames: no New
frame for `X`, and none of the asynchronous End producers for `X` (a connect
failure or a remote close of a live sub-connection `X` presupposes an earlier
New for `X`). -/
def c6Allowed (X : Nat) : MuxEvent → Bool
  | .newConn id _ _ _ _ => id ≠ X
  | .connectFailed id => id ≠ X
  | .remoteClosed id => id ≠ X
  | _ => true

lemma c6_step (s : MuxState) (X : Nat) (e : MuxEvent)
    (hI : s.closed = true ∨ X ∈ s.endedSessions)
    (hlen : s.endedSessions.length < 256)
    (hall : c6Allowed X e = true) :
    ((muxStep s e).1.closed = true ∨ X ∈ (muxStep s e).1.endedSessions) ∧
    countEnds X (muxStep s e).2 = 0 ∧
    (muxStep s e).1.endedSessions.length ≤ s.endedSessions.length + 1 := by
  cases e with
  | newConn id network address port data =>
    simp only [c6Allowed, decide_eq_true_eq] at hall
    by_cases hc : s.closed = true
    · simp [muxStep, hc, countEnds]
    · rcases hI with h | h
      · exact absurd h hc
      simp only [muxStep, if_neg hc]
      have := handleNewConnection_c6 s id network address port data X h hall hlen
      exact ⟨Or.inr this.1, this.2.1, this.2.2.1⟩
  | keep id data =>
    by_cases hc : s.closed = true
    · simp [muxStep, hc, countEnds]
    · rcases hI with h | h
      · exact absurd h hc
      cases hfind : lookupConn s id with
      | none =>
        by_cases hend : s.endedSessions.contains id = true
        · simp only [muxStep, if_neg hc, handleKeepConnection, hfind, hend, if_true]
          exact ⟨Or.inr h, rfl, Nat.le_succ _⟩
        · have hne : id ≠ X := by
            intro hEq
            subst hEq
            exact hend (List.elem_eq_true_of_mem h)
          simp only [muxStep, if_neg hc, handleKeepConnection, hfind, hend,
            Bool.false_eq_true, if_false]
          refine ⟨Or.inr ?_, ?_, ?_⟩
          · rw [markSessionEnded_eq s id hlen]
            exact setAdd_mem _ _ _ h
          · exact countEnds_sendEnd_ne _ _ _ hne
          · rw [markSessionEnded_eq s id hlen]
            exact setAdd_length _ _
      | some sub =>
        by_cases hcl : sub.closed = true
        · simp only [muxStep, if_neg hc, handleKeepConnection, hfind, hcl, if_true]
          exact ⟨Or.inr h, rfl, Nat.le_succ _⟩
        · simp only [muxStep, if_neg hc, handleKeepConnection, hfind, if_neg hcl]
          split
          · exact ⟨Or.inr h, rfl, Nat.le_succ _⟩
          · exact ⟨Or.inr h, rfl, Nat.le_succ _⟩
  | endConn id data =>
    by_cases hc : s.closed = true
    · simp [muxStep, hc, countEnds]
    · rcases hI with h | h
      · exact absurd h hc
      cases hfind : lookupConn s id with
      | none =>
        simp only [muxStep, if_neg hc, handleEndConnection, hfind]
        refine ⟨Or.inr ?_, rfl, ?_⟩
        · rw [markSessionEnded_eq s id hlen]
          exact setAdd_mem _ _ _ h
        · rw [markSessionEnded_eq s id hlen]
          exact setAdd_length _ _
      | some sub =>
        simp only [muxStep, if_neg hc, handleEndConnection, hfind, closeSubConnection,
          removeConnection]
        exact ⟨Or.inr (markSessionEnded_mem_len _ id X h hlen).1, rfl,
          (markSessionEnded_mem_len _ id X h hlen).2⟩
  | keepAlive => exact ⟨hI.imp (fun a => a) (fun a => a), rfl, Nat.le_succ _⟩
  | connectOpened id =>
    cases hfind : lookupConn s id with
    | none => simp only [muxStep, hfind]; exact ⟨hI.imp (fun a => a) (fun a => a), rfl, Nat.le_succ _⟩
    | some sub => simp only [muxStep, hfind]; exact ⟨hI.imp (fun a => a) (fun a => a), rfl, Nat.le_succ _⟩
  | connectFailed id =>
    simp only [c6Allowed, decide_eq_true_eq] at hall
    simp only [muxStep, removeConnection]
    refine ⟨?_, countEnds_sendEnd_ne _ _ _ hall, (markSessionEnded_len_le _ id hlen)⟩
    rcases hI with h | h
    · exact Or.inl h
    · exact Or.inr (markSessionEnded_mem_len _ id X h hlen).1
  | remoteData id chunk =>
    simp only [muxStep]
    split
    · exact ⟨hI.imp (fun a => a) (fun a => a), countEnds_flatten_sendData _ _ _ _, Nat.le_succ _⟩
    · exact ⟨hI.imp (fun a => a) (fun a => a), countEnds_sendData _ _ _ _, Nat.le_succ _⟩
  | remoteClosed id =>
    simp only [c6Allowed, decide_eq_true_eq] at hall
    simp only [muxStep, removeConnection]
    refine ⟨?_, countEnds_sendEnd_ne _ _ _ hall, (markSessionEnded_len_le _ id hlen)⟩
    rcases hI with h | h
    · exact Or.inl h
    · exact Or.inr (markSessionEnded_mem_len _ id X h hlen).1
  | writeError id =>
    simp only [muxStep, closeSubConnection]
    cases hfind : lookupConn s id with
    | none => exact ⟨hI.imp (fun a => a) (fun a => a), rfl, Nat.le_succ _⟩
    | some sub =>
      simp only [removeConnection]
      refine ⟨?_, rfl, (markSessionEnded_len_le _ id hlen)⟩
      rcases hI with h | h
      · exact Or.inl h
      · exact Or.inr (markSessionEnded_mem_len _ id X h hlen).1
  | dnsResponse id result =>
    exact ⟨hI.imp (fun a => a) (fun a => a), countEnds_sendData _ _ _ _, Nat.le_succ _⟩
  | closeSession =>
    by_cases hc : s.closed = true
    · simp [muxStep, hc, countEnds]
    · simp [muxStep, hc, countEnds]



lemma c6_run (s : MuxState) (X : Nat) (evs : List MuxEvent)
    (hI : s.closed = true ∨ X ∈ s.endedSessions)
    (hlen : s.endedSessions.length + evs.length ≤ 256)
    (hall : ∀ e ∈ evs, c6Allowed X e = true) :
    countEnds X (muxRun s evs).2 = 0 := by
  induction evs generalizing s with
  | nil => rfl
  | cons e rest ih =>
    have hlt : s.endedSessions.length < 256 := by
      simp only [List.length_cons] at hlen
      omega
    have hstep := c6_step s X e hI hlt (hall e (List.mem_cons_self e rest))
    have hrest := ih (muxStep s e).1 hstep.1
      (by
        have := hstep.2.2
        simp only [List.length_cons] at hlen
        omega)
      (fun e2 he2 => hall e2 (List.mem_cons_of_mem e he2))
    simp only [muxRun]
    rw [countEnds_append]
    omega

/-- C6 (amended): a Keep frame for an id `X` that is neither in the active
connection table nor in the ended-sessions set is answered by exactly one End
frame and `X` is recorded as ended; afterwards, as long as `X` stays recorded
— i.e. no New frame for `X` arrives, no pending sub-connection of `X` fails
or closes, and the 256-entry ended-sessions set does not overflow (which
would evict its older half, including possibly `X`) — no later Keep or End
frame referencing `X` produces another End frame. -/
theorem c6_duplicate_end_suppression :
    (∀ (s : MuxState) (X : Nat) (data : List Nat),
      s.closed = false → lookupConn s X = none → s.endedSessions.contains X = false →
      (muxStep s (.keep X data)).2 = [.endFrame X] ∧
      X ∈ (muxStep s (.keep X data)).1.endedSessions) ∧
    (∀ (s : MuxState) (X : Nat) (evs : List MuxEvent),
      X ∈ s.endedSessions →
      s.endedSessions.length + evs.length ≤ 256 →
      (∀ e ∈ evs, c6Allowed X e = true) →
      countEnds X (muxRun s evs).2 = 0) := by
  constructor
  · intro s X data hc hfind hend
    simp only [muxStep, hc, Bool.false_eq_true, if_false, handleKeepConnection, hfind,
      hend, if_false]
    constructor
    · unfold sendEndFrame
      rw [if_neg (by simp [markSessionEnded, hc])]
    · unfold markSessionEnded
      exact setAdd_mem_self _ X
  · intro s X evs hmem hlen hall
    exact c6_run s X evs (Or.inr hmem) hlen hall

/-- The eviction trace: 257 stranger Keeps overflow the ended set (evicting
ids 0 through 127), then a second Keep for id 0 arrives; no New frame for id
0 ever occurs. -/
def evsDup : List MuxEvent :=
  (List.range 257).map (fun i => MuxEvent.keep i []) ++ [MuxEvent.keep 0 []]

set_option maxRecDepth 100000

/-- C6 counterexample: in the eviction trace the engine emits End(0) twice
although no New frame for id 0 (indeed no New frame at all) arrives between
them, refuting the unconditional suppression claim. -/
theorem c6_counterexample :
    countEnds 0 (muxRun (initMuxState none) evsDup).2 = 2 ∧
    (evsDup.all (fun e => match e with | .newConn .. => false | _ => true)) = true := by
  constructor
  · decide
  · decide

end WsVless
namespace WsVless

lemma u16be_roundtrip (n : Nat) (h : n < 65536) : n / 256 % 256 * 256 + n % 256 = n := by
  omega

lemma parse_buildMuxKeepFrame_nil (id : Nat) (h : id < 65536) :
    parseMuxFrame (buildMuxKeepFrame id []) =
      .ok { metadata := { id := id, status := 2, option := 0, hasData := false },
            newConnection := none, udpAddress := none, data := none,
            frameLength := (buildMuxKeepFrame id []).length } := by
  simp [parseMuxFrame, buildMuxKeepFrame, buildMuxFrame, u16be, getU16, getU8,
    muxDataSection, u16be_roundtrip id h, List.get?]



lemma parse_buildMuxKeepFrame_cons (id : Nat) (data : List Nat) (h : id < 65536)
    (hd : data ≠ []) (hl : data.length < 65536) :
    parseMuxFrame (buildMuxKeepFrame id data) =
      .ok { metadata := { id := id, status := 2, option := 1, hasData := true },
            newConnection := none, udpAddress := none, data := some data,
            frameLength := (buildMuxKeepFrame id data).length } := by
  have hpos : 0 < data.length := List.length_pos.mpr hd
  simp [parseMuxFrame, buildMuxKeepFrame, buildMuxFrame, u16be, getU16, getU8,
    muxDataSection, sliceBytes, u16be_roundtrip id h, u16be_roundtrip data.length hl,
    hpos, List.get?]
  rw [if_neg (by omega), if_neg (by omega), if_neg (by omega), if_neg (by omega)]
  have harith : data.length + 1 + 1 + 1 + 1 + 1 + 1 + 1 + 1 = 8 + data.length := by omega
  rw [harith]



lemma parse_buildMuxEndFrame (id : Nat) (h : id < 65536) :
    parseMuxFrame (buildMuxEndFrame id) =
      .ok { metadata := { id := id, status := 3, option := 0, hasData := false },
            newConnection := none, udpAddress := none, data := none,
            frameLength := (buildMuxEndFrame id).length } := by
  simp [parseMuxFrame, buildMuxEndFrame, buildMuxFrame, u16be, getU16, getU8,
    muxDataSection, u16be_roundtrip id h, List.get?]

lemma parse_buildMuxKeepAliveFrame (randomId : Nat) (h : randomId < 65536) :
    parseMuxFrame (buildMuxKeepAliveFrame randomId) =
      .ok { metadata := { id := randomId, status := 4, option := 0, hasData := false },
            newConnection := none, udpAddress := none, data := none,
            frameLength := (buildMuxKeepAliveFrame randomId).length } := by
  simp [parseMuxFrame, buildMuxKeepAliveFrame, buildMuxFrame, u16be, getU16, getU8,
    muxDataSection, u16be_roundtrip randomId h, List.get?]

/-- C1: Mux frame build/parse round-trip.  Parsing a frame built by
`buildMuxKeepFrame`, `buildMuxEndFrame` or `buildMuxKeepAliveFrame` (with the
id in the u16 range the protocol carries, and a data payload below the u16
length limit) succeeds and returns the builder's id, status, option and
data-presence flag (the data bit is set iff the payload is non-empty; End and
KeepAlive carry none), the exact data payload, and a `frameLength` equal to
the length of the built array. -/
theorem c1_mux_frame_roundtrip :
    (∀ (id : Nat) (data : List Nat), id < 65536 → data.length < 65536 →
      parseMuxFrame (buildMuxKeepFrame id data) =
        .ok { metadata := { id := id, status := 2,
                            option := if data = [] then 0 else 1,
                            hasData := if data = [] then false else true },
              newConnection := none, udpAddress := none,
              data := if data = [] then none else some data,
              frameLength := (buildMuxKeepFrame id data).length }) ∧
    (∀ id : Nat, id < 65536 →
      parseMuxFrame (buildMuxEndFrame id) =
        .ok { metadata := { id := id, status := 3, option := 0, hasData := false },
              newConnection := none, udpAddress := none, data := none,
              frameLength := (buildMuxEndFrame id).length }) ∧
    (∀ randomId : Nat, randomId < 65536 →
      parseMuxFrame (buildMuxKeepAliveFrame randomId) =
        .ok { metadata := { id := randomId, status := 4, option := 0, hasData := false },
              newConnection := none, udpAddress := none, data := none,
              frameLength := (buildMuxKeepAliveFrame randomId).length }) := by
  refine ⟨?_, parse_buildMuxEndFrame, parse_buildMuxKeepAliveFrame⟩
  intro id data h hl
  by_cases hd : data = []
  · subst hd
    simpa using parse_buildMuxKeepFrame_nil id h
  · simp only [hd, if_false]
    simpa [hd] using parse_buildMuxKeepFrame_cons id data h hd hl

/-- Witness for the round-trip theorem at concrete frames. -/
theorem c1_mux_frame_roundtrip_witness :
    parseMuxFrame (buildMuxKeepFrame 7 [65, 66, 67]) =
      .ok { metadata := { id := 7, status := 2, option := 1, hasData := true },
            newConnection := none, udpAddress := none, data := some [65, 66, 67],
            frameLength := (buildMuxKeepFrame 7 [65, 66, 67]).length } ∧
    parseMuxFrame (buildMuxEndFrame 300) =
      .ok { metadata := { id := 300, status := 3, option := 0, hasData := false },
            newConnection := none, udpAddress := none, data := none,
            frameLength := (buildMuxEndFrame 300).length } := by
  constructor
  · have h := c1_mux_frame_roundtrip.1 7 [65, 66, 67] (by decide) (by decide)
    simpa using h
  · exact c1_mux_frame_roundtrip.2.1 300 (by decide)

end WsVless

namespace WsVless

/-- The recoverability test of `MuxSession.processData`: a parse error whose
message includes "Incomplete" or "too short" makes the session stop parsing
and wait for more bytes; any other message is logged as a parse error (and
parsing likewise stops for the chunk). -/
def isRecoverableMuxParseError (message : String) : Bool :=
  strIncludes message "Incomplete" || strIncludes message "too short"

end WsVless
namespace WsVless

/-- C4 (amended): both parsers report truncation below the declared minimum
as an error value — `processHeader` rejects a buffer shorter than 24 bytes
with the short-buffer error, and `parseMuxFrame` reports a buffer shorter
than 2 bytes, or shorter than the declared `2 + metadata_length`, with an
error the session classifies as recoverable (wait for more data).  Neither
parser is exception-free on arbitrary inputs, however: see the
counterexample. -/
theorem c4_truncation_recoverable :
    (∀ (buffer : List Nat) (validateUUID : String → Bool), buffer.length < 24 →
      processHeader buffer validateUUID = .err "Invalid data: buffer too short") ∧
    (∀ bytes : List Nat, bytes.length < 2 →
      parseMuxFrame bytes = .error "Buffer too short for Mux frame" ∧
      isRecoverableMuxParseError "Buffer too short for Mux frame" = true) ∧
    (∀ bytes : List Nat, 2 ≤ bytes.length →
      bytes.length < 2 + (getU16 bytes 0).getD 0 →
      parseMuxFrame bytes = .error "Incomplete Mux metadata" ∧
      isRecoverableMuxParseError "Incomplete Mux metadata" = true) := by
  refine ⟨?_, ?_, ?_⟩
  · intro buffer validateUUID h
    unfold processHeader
    rw [if_pos h]
  · intro bytes h
    refine ⟨?_, by decide⟩
    unfold parseMuxFrame
    rw [if_pos h]
  · intro bytes h2 hlt
    refine ⟨?_, by decide⟩
    unfold parseMuxFrame
    rw [if_neg (by omega), if_pos hlt]

/-- Witness for the truncation theorem at concrete short buffers. -/
theorem c4_truncation_recoverable_witness :
    processHeader [0, 1, 2] (fun _ => true) = .err "Invalid data: buffer too short" ∧
    parseMuxFrame [7] = .error "Buffer too short for Mux frame" ∧
    parseMuxFrame [0, 9, 0, 1] = .error "Incomplete Mux metadata" :=
  ⟨c4_truncation_recoverable.1 [0, 1, 2] (fun _ => true) (by decide),
   (c4_truncation_recoverable.2.1 [7] (by decide)).1,
   (c4_truncation_recoverable.2.2 [0, 9, 0, 1] (by decide) (by decide)).1⟩

/-- C4 counterexample: the parsers are not exception-free.  A New frame whose
declared metadata length is the minimal 4 makes `parseMuxFrame` read the New
fields past the declared metadata and throw a `RangeError`, and a greeting
whose opt-length pushes the port field past the end of the buffer makes
`processHeader` throw on the port read. -/
theorem c4_counterexample :
    parseMuxFrame [0, 4, 0, 1, 1, 0] =
      .thrown "RangeError: DataView getUint16 out of bounds" ∧
    processHeader ([0] ++ List.replicate 16 0 ++ [4, 0, 0, 0, 0, 1, 0]) (fun _ => true) =
      .thrown "RangeError: DataView getUint16 out of bounds" := by
  constructor
  · decide
  · decide

end WsVless
namespace WsVless

/-- C5 (amended): a greeting of length ≥ 24 with an authorized UUID, a TCP or
UDP command, address type Domain and a zero domain-length byte parses
SUCCESSFULLY with the empty string as address (`hasError` is false): the
Domain branch of `parseAddress` returns before the empty-address check, so no
empty-address error is produced for domains. -/
theorem c5_zero_length_domain :
    ∀ (buffer : List Nat) (validateUUID : String → Bool) (receivedUUID : String)
      (cmd port : Nat),
      24 ≤ buffer.length →
      Uuid.stringify (sliceBytes buffer 1 17) = some receivedUUID →
      validateUUID receivedUUID = true →
      buffer.get? (18 + buffer.getD 17 0) = some cmd →
      cmd = 1 ∨ cmd = 2 →
      getU16 buffer (18 + buffer.getD 17 0 + 1) = some port →
      buffer.get? (18 + buffer.getD 17 0 + 3) = some 2 →
      buffer.get? (18 + buffer.getD 17 0 + 4) = some 0 →
      processHeader buffer validateUUID =
        .ok { addressRemote := "", addressType := 2, portRemote := port,
              rawDataIndex := some (18 + buffer.getD 17 0 + 5),
              protocolVersion := buffer.getD 0 0,
              isUDP := cmd == 2, isMux := false } := by
  intro buffer validateUUID receivedUUID cmd port hlen huuid hval hcmd hcases hport hatype hdlen
  unfold processHeader
  rw [if_neg (by omega), huuid]
  simp only [hval, Bool.true_eq_false, not_true_eq_false, if_false, ite_false,
    Bool.not_true]
  have htail :
      processHeader.processHeaderTail buffer (buffer.getD 0 0) (cmd == 2)
        (18 + buffer.getD 17 0) =
      .ok { addressRemote := "", addressType := 2, portRemote := port,
            rawDataIndex := some (18 + buffer.getD 17 0 + 5),
            protocolVersion := buffer.getD 0 0,
            isUDP := cmd == 2, isMux := false } := by
    unfold processHeader.processHeaderTail
    simp only [hport]
    have haddr : parseAddressHeader buffer (18 + buffer.getD 17 0 + 1 + 2) =
        .ok "" 2 (some (18 + buffer.getD 17 0 + 5)) := by
      unfold parseAddressHeader
      have h3 : getU8 buffer (18 + buffer.getD 17 0 + 1 + 2) = some 2 := by
        show buffer.get? (18 + buffer.getD 17 0 + 1 + 2) = some 2
        rw [show 18 + buffer.getD 17 0 + 1 + 2 = 18 + buffer.getD 17 0 + 3 from by omega]
        exact hatype
      simp only [h3]
      have h4 : getU8 buffer (18 + buffer.getD 17 0 + 1 + 2 + 1) = some 0 := by
        show buffer.get? (18 + buffer.getD 17 0 + 1 + 2 + 1) = some 0
        rw [show 18 + buffer.getD 17 0 + 1 + 2 + 1 = 18 + buffer.getD 17 0 + 4 from by omega]
        exact hdlen
      simp only [h4]
      simp [decodeBytes, sliceBytes]
    simp only [haddr]
    rfl
  rcases hcases with h1 | h2
  · subst h1
    have hcmd2 : getU8 buffer (18 + buffer.getD 17 0) = some 1 := hcmd
    simp only [hcmd2]
    simpa using htail
  · subst h2
    have hcmd2 : getU8 buffer (18 + buffer.getD 17 0) = some 2 := hcmd
    simp only [hcmd2]
    simpa using htail



/-- C5 counterexample: the 24-byte greeting `[0, 16-zero-uuid, opt 0, TCP,
port 80, Domain, length 0, one filler byte]` with an accept-all validator
parses with `hasError` FALSE and an empty address, refuting the claim that a
zero domain-length byte yields an empty-address error. -/
theorem c5_counterexample :
    processHeader ([0] ++ List.replicate 16 0 ++ [0, 1, 0, 80, 2, 0, 99]) (fun _ => true) =
      .ok { addressRemote := "", addressType := 2, portRemote := 80,
            rawDataIndex := some 23, protocolVersion := 0,
            isUDP := false, isMux := false } := by
  decide

/-- Witness for the amended zero-length-domain theorem at a concrete
greeting. -/
theorem c5_zero_length_domain_witness :
    processHeader ([0] ++ List.replicate 16 0 ++ [0, 2, 0, 53, 2, 0, 99]) (fun _ => true) =
      .ok { addressRemote := "", addressType := 2, portRemote := 53,
            rawDataIndex := some 23, protocolVersion := 0,
            isUDP := (2 == 2), isMux := false } :=
  c5_zero_length_domain ([0] ++ List.replicate 16 0 ++ [0, 2, 0, 53, 2, 0, 99])
    (fun _ => true) "00000000-0000-0000-0000-000000000000" 2 53
    (by decide) (by decide) rfl (by decide) (Or.inr rfl) (by decide) (by decide) (by decide)

end WsVless
namespace WsVless

lemma processHeaderTail_ok (buffer : List Nat) (version : Nat) (isUDP : Bool)
    (ci port atv : Nat) (addr : String) (ei : Option Nat)
    (hport : getU16 buffer (ci + 1) = some port)
    (haddr : parseAddressHeader buffer (ci + 1 + 2) = .ok addr atv ei) :
    processHeader.processHeaderTail buffer version isUDP ci =
      .ok { addressRemote := addr, addressType := atv, portRemote := port,
            rawDataIndex := ei, protocolVersion := version, isUDP := isUDP,
            isMux := isMuxConnection addr } := by
  unfold processHeader.processHeaderTail
  simp only [hport, haddr]

/-- C7: Mux classification.  A valid greeting whose command byte is MUX
(0x03) parses with `isMux` true, the synthesized address literal "mux.cool",
port 0, and `rawDataIndex` pointing right after the command byte (no port or
address fields are consumed); and a valid greeting with a TCP or UDP command
whose parsed address is the sentinel "v1.mux.cool" is likewise classified
with `isMux` true. -/
theorem c7_mux_classification :
    (∀ (buffer : List Nat) (validateUUID : String → Bool) (receivedUUID : String),
      24 ≤ buffer.length →
      Uuid.stringify (sliceBytes buffer 1 17) = some receivedUUID →
      validateUUID receivedUUID = true →
      buffer.get? (18 + buffer.getD 17 0) = some 3 →
      processHeader buffer validateUUID =
        .ok { addressRemote := "mux.cool", addressType := 2, portRemote := 0,
              rawDataIndex := some (18 + buffer.getD 17 0 + 1),
              protocolVersion := buffer.getD 0 0, isUDP := false, isMux := true }) ∧
    (∀ (buffer : List Nat) (validateUUID : String → Bool) (receivedUUID : String)
       (cmd port atv : Nat) (ei : Option Nat),
      24 ≤ buffer.length →
      Uuid.stringify (sliceBytes buffer 1 17) = some receivedUUID →
      validateUUID receivedUUID = true →
      buffer.get? (18 + buffer.getD 17 0) = some cmd →
      cmd = 1 ∨ cmd = 2 →
      getU16 buffer (18 + buffer.getD 17 0 + 1) = some port →
      parseAddressHeader buffer (18 + buffer.getD 17 0 + 1 + 2) =
        .ok "v1.mux.cool" atv ei →
      processHeader buffer validateUUID =
        .ok { addressRemote := "v1.mux.cool", addressType := atv, portRemote := port,
              rawDataIndex := ei, protocolVersion := buffer.getD 0 0,
              isUDP := cmd == 2, isMux := true }) := by
  constructor
  · intro buffer validateUUID receivedUUID hlen huuid hval hcmd
    unfold processHeader
    rw [if_neg (by omega), huuid]
    simp only [hval, not_true_eq_false, if_false, ite_false]
    have hcmd2 : getU8 buffer (18 + buffer.getD 17 0) = some 3 := hcmd
    simp only [hcmd2]
  · intro buffer validateUUID receivedUUID cmd port atv ei hlen huuid hval hcmd hcases
      hport haddr
    have htail := processHeaderTail_ok buffer (buffer.getD 0 0) (cmd == 2)
      (18 + buffer.getD 17 0) port atv "v1.mux.cool" ei hport haddr
    rw [show isMuxConnection "v1.mux.cool" = true from rfl] at htail
    unfold processHeader
    rw [if_neg (by omega), huuid]
    simp only [hval, not_true_eq_false, if_false, ite_false]
    rcases hcases with h1 | h2
    · subst h1
      have hcmd2 : getU8 buffer (18 + buffer.getD 17 0) = some 1 := hcmd
      simp only [hcmd2]
      simpa using htail
    · subst h2
      have hcmd2 : getU8 buffer (18 + buffer.getD 17 0) = some 2 := hcmd
      simp only [hcmd2]
      simpa using htail

/-- Witness for the Mux classification theorem: a MUX-command greeting and a
TCP greeting aimed at the sentinel domain "v1.mux.cool". -/
theorem c7_mux_classification_witness :
    processHeader ([0] ++ List.replicate 16 0 ++ [0, 3, 9, 9, 9, 9, 9]) (fun _ => true) =
      .ok { addressRemote := "mux.cool", addressType := 2, portRemote := 0,
            rawDataIndex := some 19, protocolVersion := 0,
            isUDP := false, isMux := true } ∧
    processHeader ([0] ++ List.replicate 16 0 ++ [0, 1, 1, 187, 2, 11] ++
        [118, 49, 46, 109, 117, 120, 46, 99, 111, 111, 108]) (fun _ => true) =
      .ok { addressRemote := "v1.mux.cool", addressType := 2, portRemote := 443,
            rawDataIndex := some 34, protocolVersion := 0,
            isUDP := (1 == 2), isMux := true } := by
  constructor
  · exact c7_mux_classification.1 ([0] ++ List.replicate 16 0 ++ [0, 3, 9, 9, 9, 9, 9])
      (fun _ => true) "00000000-0000-0000-0000-000000000000"
      (by decide) (by decide) rfl (by decide)
  · exact c7_mux_classification.2 ([0] ++ List.replicate 16 0 ++ [0, 1, 1, 187, 2, 11] ++
        [118, 49, 46, 109, 117, 120, 46, 99, 111, 111, 108])
      (fun _ => true) "00000000-0000-0000-0000-000000000000" 1 443 2 (some 34)
      (by decide) (by decide) rfl (by decide) (Or.inl rfl) (by decide) (by decide)

end WsVless
namespace WsVless

/-- C8 (amended): with the full declared metadata present but
`metadata_length < 4`, `parseMuxFrame` returns the error "Mux metadata too
short" — which the session's recoverability test (message includes
"Incomplete" or "too short") classifies as RECOVERABLE, not as a fatal
protocol error; and for an End, KeepAlive or minimal Keep frame whose data
bit is set but where fewer than `2 + data_length` bytes follow the metadata,
`parseMuxFrame` returns a recoverable Incomplete-class error (frames whose
status-specific metadata is itself malformed can instead throw; see the C4
counterexample). -/
theorem c8_mux_error_classification :
    (∀ bytes : List Nat,
      2 + (getU16 bytes 0).getD 0 ≤ bytes.length →
      (getU16 bytes 0).getD 0 < 4 →
      parseMuxFrame bytes = .error "Mux metadata too short" ∧
      isRecoverableMuxParseError "Mux metadata too short" = true) ∧
    (∀ (bytes : List Nat) (ml : Nat),
      (getU16 bytes 0).getD 0 = ml →
      2 + ml ≤ bytes.length →
      4 ≤ ml →
      (bytes.getD 4 0 = 3 ∨ bytes.getD 4 0 = 4 ∨ (bytes.getD 4 0 = 2 ∧ ml = 4)) →
      bytes.getD 5 0 % 2 = 1 →
      bytes.length < 2 + ml + 2 + (getU16 bytes (2 + ml)).getD 0 →
      ∃ m, parseMuxFrame bytes = .error m ∧
        strIncludes m "Incomplete" = true ∧
        isRecoverableMuxParseError m = true) := by
  constructor
  · intro bytes hfull hml
    refine ⟨?_, by decide⟩
    unfold parseMuxFrame
    rw [if_neg (by omega), if_neg (by omega), if_pos hml]
  · intro bytes ml hml hfull hge hstatus hopt hshort
    have hdata : ∀ (md : MuxMetadata) (nc : Option MuxNewConnection)
        (ua : Option MuxUDPAddress), md.hasData = true →
        ∃ m, muxDataSection bytes md nc ua (2 + ml) = .error m ∧
          strIncludes m "Incomplete" = true ∧
          isRecoverableMuxParseError m = true := by
      intro md nc ua hhas
      unfold muxDataSection
      rw [hhas]
      by_cases hlen2 : bytes.length < 2 + ml + 2
      · rw [if_pos hlen2, if_pos rfl]
        exact ⟨"Incomplete Mux data length", rfl, by decide, by decide⟩
      · rw [if_pos rfl, if_neg hlen2, if_pos (by omega)]
        exact ⟨"Incomplete Mux data", rfl, by decide, by decide⟩
    unfold parseMuxFrame
    rw [if_neg (by omega)]
    simp only [hml]
    rw [if_neg (by omega), if_neg (by omega)]
    rcases hstatus with h3 | h4 | ⟨h2, hml4⟩
    · rw [h3]
      exact hdata _ none none (by simpa using hopt)
    · rw [h4]
      exact hdata _ none none (by simpa using hopt)
    · rw [h2]
      rw [if_neg (by omega)]
      exact hdata _ none none (by simpa using hopt)

/-- Witness for the amended error-classification theorem at concrete
buffers. -/
theorem c8_mux_error_classification_witness :
    (parseMuxFrame [0, 3, 0, 0, 0] = .error "Mux metadata too short" ∧
      isRecoverableMuxParseError "Mux metadata too short" = true) ∧
    (∃ m, parseMuxFrame [0, 4, 0, 1, 3, 1, 0] = .error m ∧
      strIncludes m "Incomplete" = true ∧
      isRecoverableMuxParseError m = true) :=
  ⟨c8_mux_error_classification.1 [0, 3, 0, 0, 0] (by decide) (by decide),
   c8_mux_error_classification.2 [0, 4, 0, 1, 3, 1, 0] 4 (by decide) (by decide)
     (by decide) (Or.inl (by decide)) (by decide) (by decide)⟩

/-- C8 counterexample: the "Mux metadata too short" protocol error contains
"too short", so `processData` classifies it exactly like a recoverable
truncation (it stops parsing and waits for more bytes, with no warning) —
there is no non-recoverable classification for it; and a truncated New frame
with the data bit set throws instead of returning an Incomplete error. -/
theorem c8_counterexample :
    parseMuxFrame [0, 3, 0, 0, 0] = .error "Mux metadata too short" ∧
    isRecoverableMuxParseError "Mux metadata too short" = true ∧
    parseMuxFrame [0, 4, 0, 1, 1, 1, 0] =
      .thrown "RangeError: DataView getUint16 out of bounds" := by
  refine ⟨by decide, by decide, by decide⟩

end WsVless
namespace WsVless

lemma mem_insertByPriority (p x : Provider) (l : List Provider) :
    x ∈ insertByPriority p l ↔ x = p ∨ x ∈ l := by
  induction l with
  | nil => simp [insertByPriority]
  | cons q qs ih =>
    unfold insertByPriority
    split
    · simp only [List.mem_cons, ih]
      try tauto
    · simp only [List.mem_cons]
      try tauto

lemma pairwise_insertByPriority (p : Provider) (l : List Provider)
    (h : l.Pairwise (fun a b => a.priority ≤ b.priority)) :
    (insertByPriority p l).Pairwise (fun a b => a.priority ≤ b.priority) := by
  induction l with
  | nil => simp [insertByPriority]
  | cons q qs ih =>
    rcases List.pairwise_cons.mp h with ⟨hq, hqs⟩
    unfold insertByPriority
    split
    · rename_i hle
      refine List.pairwise_cons.mpr ⟨?_, ih hqs⟩
      intro x hx
      rcases (mem_insertByPriority p x qs).mp hx with rfl | hx2
      · exact hle
      · exact hq x hx2
    · rename_i hgt
      refine List.pairwise_cons.mpr ⟨?_, h⟩
      intro x hx
      rcases List.mem_cons.mp hx with rfl | hx2
      · omega
      · exact le_trans (by omega) (hq x hx2)

lemma lookupAssoc_cons (e : String × String) (m : List (String × String)) (k : String) :
    lookupAssoc (e :: m) k = if e.1 == k then some e.2 else lookupAssoc m k := by
  simp only [lookupAssoc, List.find?_cons]
  cases h : (e.1 == k) <;> simp [h]

lemma lookupAssoc_append (m1 m2 : List (String × String)) (k : String) :
    lookupAssoc (m1 ++ m2) k =
      match lookupAssoc m1 k with
      | some v => some v
      | none => lookupAssoc m2 k := by
  induction m1 with
  | nil => simp [lookupAssoc]
  | cons e m1 ih =>
    rw [List.cons_append, lookupAssoc_cons, lookupAssoc_cons]
    cases h : (e.1 == k) <;> simp [h, ih]

lemma lookupAssoc_map_update_ne (m : List (String × String)) (k0 v0 k : String)
    (hne : (k0 == k) = false) :
    lookupAssoc (m.map (fun e => if e.1 == k0 then (k0, v0) else e)) k =
      lookupAssoc m k := by
  induction m with
  | nil => rfl
  | cons e m ih =>
    simp only [List.map_cons]
    rw [lookupAssoc_cons, lookupAssoc_cons]
    cases he : (e.1 == k0) with
    | true =>
      have h1 : e.1 = k0 := eq_of_beq he
      have hek : (e.1 == k) = false := h1 ▸ hne
      simp only [he, if_true, hne, hek, Bool.false_eq_true, if_false]
      exact ih
    | false =>
      simp only [he, Bool.false_eq_true, if_false]
      cases hk : (e.1 == k) with
      | true => simp only [hk, if_true]
      | false =>
        simp only [hk, Bool.false_eq_true, if_false]
        exact ih

lemma lookupAssoc_setAssoc_ne (m : List (String × String)) (k0 v0 k : String)
    (hne : (k0 == k) = false) :
    lookupAssoc (setAssoc m k0 v0) k = lookupAssoc m k := by
  unfold setAssoc
  split
  · exact lookupAssoc_map_update_ne m k0 v0 k hne
  · rw [lookupAssoc_append]
    cases h : lookupAssoc m k
    · simp [lookupAssoc_cons, hne, lookupAssoc]
    · simp

lemma lookupAssoc_mergeOne_preserve (m : List (String × String)) (n u k v : String)
    (hv : v ≠ "") (h : lookupAssoc m k = some v) :
    lookupAssoc (mergeOne m n u) k = some v := by
  unfold mergeOne
  cases hl : lookupAssoc m (lowerStr u) with
  | none =>
    simp only [hl, lookupAssoc_append, h]
  | some w =>
    simp only [hl]
    by_cases hw : w = ""
    · rw [if_pos hw]
      cases hk : (lowerStr u == k) with
      | true =>
        exfalso
        have hk2 : lowerStr u = k := eq_of_beq hk
        rw [hk2, h] at hl
        injection hl with h2
        exact hv (by rw [← h2] at hw; exact hw)
      | false =>
        rw [lookupAssoc_setAssoc_ne m _ n k hk]
        exact h
    · rw [if_neg hw]
      exact h

end WsVless

namespace WsVless

lemma lookupAssoc_mergeOne_none_eq (m : List (String × String)) (n u k : String)
    (hk : lowerStr u = k) (h : lookupAssoc m k = none) :
    lookupAssoc (mergeOne m n u) k = some n := by
  unfold mergeOne
  rw [hk]
  simp only [h, lookupAssoc_append]
  rw [lookupAssoc_cons]
  simp

lemma lookupAssoc_mergeOne_none_ne (m : List (String × String)) (n u k : String)
    (hk : (lowerStr u == k) = false) (h : lookupAssoc m k = none) :
    lookupAssoc (mergeOne m n u) k = none := by
  unfold mergeOne
  cases hl : lookupAssoc m (lowerStr u) with
  | none =>
    simp only [hl, lookupAssoc_append]
    rw [h, lookupAssoc_cons]
    simp [hk, lookupAssoc]
  | some w =>
    simp only [hl]
    by_cases hw : w = ""
    · rw [if_pos hw, lookupAssoc_setAssoc_ne m _ n k hk]
      exact h
    · rw [if_neg hw]
      exact h

lemma lookupAssoc_mergeStep_preserve (us : List String) (m : List (String × String))
    (n k v : String) (hv : v ≠ "") (h : lookupAssoc m k = some v) :
    lookupAssoc (mergeStep m n us) k = some v := by
  induction us generalizing m with
  | nil => exact h
  | cons u us ih =>
    unfold mergeStep
    rw [List.foldl_cons]
    exact ih _ (lookupAssoc_mergeOne_preserve m n u k v hv h)

lemma lookupAssoc_mergeStep_none (us : List String) (m : List (String × String))
    (n k : String) (hn : n ≠ "") (h : lookupAssoc m k = none) :
    lookupAssoc (mergeStep m n us) k =
      if us.any (fun u => lowerStr u == k) then some n else none := by
  induction us generalizing m with
  | nil => exact h
  | cons u us ih =>
    unfold mergeStep
    rw [List.foldl_cons]
    cases hk : (lowerStr u == k) with
    | true =>
      have hstep := lookupAssoc_mergeOne_none_eq m n u k (eq_of_beq hk) h
      have hrest := lookupAssoc_mergeStep_preserve us (mergeOne m n u) n k n hn hstep
      rw [show mergeStep (mergeOne m n u) n us =
          List.foldl (fun acc u => mergeOne acc n u) (mergeOne m n u) us from rfl] at hrest
      rw [hrest]
      simp [List.any_cons, hk]
    | false =>
      have hstep := lookupAssoc_mergeOne_none_ne m n u k hk h
      have hrest := ih (mergeOne m n u) hstep
      rw [show mergeStep (mergeOne m n u) n us =
          List.foldl (fun acc u => mergeOne acc n u) (mergeOne m n u) us from rfl] at hrest
      rw [hrest]
      simp [List.any_cons, hk]

lemma lookupAssoc_merge_fold (ps : List Provider) (m : List (String × String)) (k : String)
    (hn : ∀ p ∈ ps, p.name ≠ "")
    (hm : ∀ v, lookupAssoc m k = some v → v ≠ "") :
    lookupAssoc (ps.foldl (fun m p => mergeStep m p.name (resultOrEmpty p)) m) k =
      match lookupAssoc m k with
      | some v => some v
      | none =>
        ((ps.find? (fun p => (resultOrEmpty p).any (fun u => lowerStr u == k))).map
          (fun p => p.name)) := by
  induction ps generalizing m with
  | nil =>
    rw [List.foldl_nil]
    cases h : lookupAssoc m k <;> simp
  | cons p ps ih =>
    rw [List.foldl_cons]
    have hnp : p.name ≠ "" := hn p (List.mem_cons_self p ps)
    have hns : ∀ q ∈ ps, q.name ≠ "" := fun q hq => hn q (List.mem_cons_of_mem p hq)
    cases h : lookupAssoc m k with
    | some v =>
      have hv : v ≠ "" := hm v h
      have hstep := lookupAssoc_mergeStep_preserve (resultOrEmpty p) m p.name k v hv h
      have := ih (mergeStep m p.name (resultOrEmpty p)) hns
        (fun w hw => by rw [hstep] at hw; injection hw with h2; rw [← h2]; exact hv)
      rw [this, hstep]
    | none =>
      have hstep := lookupAssoc_mergeStep_none (resultOrEmpty p) m p.name k hnp h
      cases hany : ((resultOrEmpty p).any (fun u => lowerStr u == k)) with
      | true =>
        rw [hany] at hstep
        simp only [if_pos] at hstep
        have := ih (mergeStep m p.name (resultOrEmpty p)) hns
          (fun w hw => by rw [hstep] at hw; injection hw with h2; rw [← h2]; exact hnp)
        rw [this, hstep]
        simp [List.find?_cons, hany]
      | false =>
        rw [hany] at hstep
        simp only [Bool.false_eq_true, if_false] at hstep
        have := ih (mergeStep m p.name (resultOrEmpty p)) hns
          (fun w hw => by rw [hstep] at hw; cases hw)
        rw [this, hstep]
        simp [List.find?_cons, hany]

end WsVless

namespace WsVless

/-- C9: provider merge policy.  Registration keeps the provider list sorted by
ascending priority (the stable sort after each push is an ordered insertion);
the merge has settle-all semantics — replacing a failed fetch by an empty
list leaves the merged map unchanged, i.e. one provider's failure only
removes its own contribution; and (for providers with non-empty names, as all
the built-in providers have) the merged map sends every lower-cased UUID to
the name of the FIRST provider in the priority-ordered list that supplied it:
earlier, higher-priority providers win every conflict. -/
theorem c9_provider_merge :
    (∀ regs : List Provider,
      (registerAllProviders regs).Pairwise (fun a b => a.priority ≤ b.priority)) ∧
    (∀ ps : List Provider,
      fetchFromProviders
        (ps.map (fun p => { p with fetchOutcome := some (resultOrEmpty p) })) =
      fetchFromProviders ps) ∧
    (∀ ps : List Provider, (∀ p ∈ ps, p.name ≠ "") → ∀ k : String,
      lookupAssoc (fetchFromProviders ps) k =
        ((ps.find? (fun p => (resultOrEmpty p).any (fun u => lowerStr u == k))).map
          (fun p => p.name))) := by
  refine ⟨?_, ?_, ?_⟩
  · intro regs
    unfold registerAllProviders
    induction regs using List.reverseRecOn with
    | nil => simp
    | append_singleton qs p ih =>
      rw [List.foldl_append, List.foldl_cons, List.foldl_nil]
      exact pairwise_insertByPriority p _ ih
  · intro ps
    unfold fetchFromProviders
    rw [List.foldl_map]
    rfl
  · intro ps hn k
    have := lookupAssoc_merge_fold ps [] k hn (fun v hv => by cases hv)
    unfold fetchFromProviders
    rw [this]
    rfl

/-- Witness for the merge theorem: three registered providers — a static one
(priority 0), a failed HTTP one (priority 10), and a remote one (priority 20)
that also supplies the static provider's UUID in different case — merged so
that the conflicting UUID keeps the static provider's name. -/
theorem c9_provider_merge_witness :
    lookupAssoc
      (fetchFromProviders
        [{ name := "static", priority := 0, fetchOutcome := some ["AAAA", "bbbb"] },
         { name := "http-api", priority := 10, fetchOutcome := none },
         { name := "remnawave", priority := 20, fetchOutcome := some ["aaaa", "cccc"] }])
      "aaaa" = some "static" := by
  rw [c9_provider_merge.2.2
    [{ name := "static", priority := 0, fetchOutcome := some ["AAAA", "bbbb"] },
     { name := "http-api", priority := 10, fetchOutcome := none },
     { name := "remnawave", priority := 20, fetchOutcome := some ["aaaa", "cccc"] }]
    (by decide) "aaaa"]
  decide

end WsVless

namespace WsVless.Uuid

lemma char_toNat_ofNat (n : Nat) (h : n < 128) : (Char.ofNat n).toNat = n := by
  unfold Char.ofNat
  split
  · rfl
  · rename_i hv
    exact absurd (Or.inl (by omega)) hv

lemma char_ofNat_toNat (c : Char) (h : c.toNat < 128) : Char.ofNat c.toNat = c := by
  apply Char.ext
  exact UInt32.ext (char_toNat_ofNat c.toNat h)

lemma hexDigit_toNat (n : Nat) (h : n < 16) :
    (hexDigit n).toNat = if n < 10 then 48 + n else 87 + n := by
  unfold hexDigit
  split
  · exact char_toNat_ofNat _ (by omega)
  · exact char_toNat_ofNat _ (by omega)

lemma isHexChar_hexDigit (n : Nat) (h : n < 16) : isHexChar (hexDigit n) = true := by
  unfold isHexChar
  rw [hexDigit_toNat n h]
  by_cases h10 : n < 10
  · rw [if_pos h10]
    simp only [Bool.or_eq_true, Bool.and_eq_true, decide_eq_true_eq]
    omega
  · rw [if_neg h10]
    simp only [Bool.or_eq_true, Bool.and_eq_true, decide_eq_true_eq]
    omega

lemma hexVal_hexDigit (n : Nat) (h : n < 16) : hexVal (hexDigit n) = n := by
  by_cases h10 : n < 10
  · have ht : (hexDigit n).toNat = 48 + n := by rw [hexDigit_toNat n h, if_pos h10]
    unfold hexVal
    rw [ht, if_pos (by simp only [Bool.and_eq_true, decide_eq_true_eq]; omega)]
    omega
  · have ht : (hexDigit n).toNat = 87 + n := by rw [hexDigit_toNat n h, if_neg h10]
    unfold hexVal
    rw [ht, if_neg (by simp only [Bool.and_eq_true, decide_eq_true_eq]; omega),
      if_pos (by simp only [Bool.and_eq_true, decide_eq_true_eq]; omega)]
    omega

lemma hexVal_lt (c : Char) (h : isHexChar c = true) : hexVal c < 16 := by
  unfold isHexChar at h
  simp only [Bool.or_eq_true, Bool.and_eq_true, decide_eq_true_eq] at h
  unfold hexVal
  rcases h with (⟨h1, h2⟩ | ⟨h1, h2⟩) | ⟨h1, h2⟩
  · rw [if_pos (by simp only [Bool.and_eq_true, decide_eq_true_eq]; omega)]
    omega
  · rw [if_neg (by simp only [Bool.and_eq_true, decide_eq_true_eq]; omega),
      if_pos (by simp only [Bool.and_eq_true, decide_eq_true_eq]; omega)]
    omega
  · rw [if_neg (by simp only [Bool.and_eq_true, decide_eq_true_eq]; omega),
      if_neg (by simp only [Bool.and_eq_true, decide_eq_true_eq]; omega)]
    omega

lemma hexDigit_ne_hyphen (n : Nat) (h : n < 16) : hexDigit n ≠ '-' := by
  intro he
  have := congrArg Char.toNat he
  rw [hexDigit_toNat n h] at this
  have h45 : ('-').toNat = 45 := rfl
  rw [h45] at this
  split at this <;> omega

lemma isHexChar_ne_hyphen (c : Char) (h : isHexChar c = true) : c ≠ '-' := by
  intro he
  subst he
  simp [isHexChar] at h

lemma isHexChar_toNat_lt (c : Char) (h : isHexChar c = true) : c.toNat < 128 := by
  unfold isHexChar at h
  simp only [Bool.or_eq_true, Bool.and_eq_true, decide_eq_true_eq] at h
  omega

lemma hexDigit_hexVal (c : Char) (h : isHexChar c = true) :
    hexDigit (hexVal c) = lowerChar c := by
  have hlt := isHexChar_toNat_lt c h
  unfold isHexChar at h
  simp only [Bool.or_eq_true, Bool.and_eq_true, decide_eq_true_eq] at h
  rcases h with (⟨h1, h2⟩ | ⟨h1, h2⟩) | ⟨h1, h2⟩
  · have hv : hexVal c = c.toNat - 48 := by
      unfold hexVal
      rw [if_pos (by simp only [Bool.and_eq_true, decide_eq_true_eq]; omega)]
    have hd : hexDigit (hexVal c) = Char.ofNat (48 + (c.toNat - 48)) := by
      unfold hexDigit
      rw [hv, if_pos (by omega)]
    rw [hd, show 48 + (c.toNat - 48) = c.toNat from by omega]
    unfold lowerChar
    rw [if_neg (by omega)]
    exact char_ofNat_toNat c hlt
  · have hv : hexVal c = c.toNat - 87 := by
      unfold hexVal
      rw [if_neg (by simp only [Bool.and_eq_true, decide_eq_true_eq]; omega),
        if_pos (by simp only [Bool.and_eq_true, decide_eq_true_eq]; omega)]
    have hd : hexDigit (hexVal c) = Char.ofNat (87 + (c.toNat - 87)) := by
      unfold hexDigit
      rw [hv, if_neg (by omega)]
    rw [hd, show 87 + (c.toNat - 87) = c.toNat from by omega]
    unfold lowerChar
    rw [if_neg (by omega)]
    exact char_ofNat_toNat c hlt
  · have hv : hexVal c = c.toNat - 55 := by
      unfold hexVal
      rw [if_neg (by simp only [Bool.and_eq_true, decide_eq_true_eq]; omega),
        if_neg (by simp only [Bool.and_eq_true, decide_eq_true_eq]; omega)]
    have hd : hexDigit (hexVal c) = Char.ofNat (87 + (c.toNat - 55)) := by
      unfold hexDigit
      rw [hv, if_neg (by omega)]
    rw [hd]
    unfold lowerChar
    rw [if_pos (by omega)]
    congr 1
    omega

lemma byteToHex_eq (b : Nat) (h : b < 256) :
    byteToHex b = [hexDigit (b / 16), hexDigit (b % 16)] := by
  unfold byteToHex
  rw [if_pos h]




open WsVless

lemma getD_lt256 (arr : List Nat) (h : ∀ b ∈ arr, b < 256) (i : Nat) :
    arr.getD i 0 < 256 := by
  rcases Nat.lt_or_ge i arr.length with hi | hi
  · rw [List.getD_eq_getElem arr 0 hi]
    exact h _ (List.getElem_mem hi)
  · rw [List.getD_eq_default arr 0 hi]
    omega

lemma isValid_unsafeStringify (arr : List Nat) (h : ∀ b ∈ arr, b < 256) :
    isValidUUID (unsafeStringify arr) = true := by
  have hb := getD_lt256 arr h
  have hhi : ∀ i : Nat, isHexChar (hexDigit (arr.getD i 0 / 16)) = true := fun i =>
    isHexChar_hexDigit _ (by have := hb i; omega)
  have hlo : ∀ i : Nat, isHexChar (hexDigit (arr.getD i 0 % 16)) = true := fun i =>
    isHexChar_hexDigit _ (Nat.mod_lt _ (by omega))
  unfold isValidUUID unsafeStringify
  rw [byteToHex_eq (arr.getD (0 + 0) 0) (hb (0 + 0)), byteToHex_eq (arr.getD (0 + 1) 0) (hb (0 + 1)), byteToHex_eq (arr.getD (0 + 2) 0) (hb (0 + 2)), byteToHex_eq (arr.getD (0 + 3) 0) (hb (0 + 3)), byteToHex_eq (arr.getD (0 + 4) 0) (hb (0 + 4)), byteToHex_eq (arr.getD (0 + 5) 0) (hb (0 + 5)), byteToHex_eq (arr.getD (0 + 6) 0) (hb (0 + 6)), byteToHex_eq (arr.getD (0 + 7) 0) (hb (0 + 7)), byteToHex_eq (arr.getD (0 + 8) 0) (hb (0 + 8)), byteToHex_eq (arr.getD (0 + 9) 0) (hb (0 + 9)), byteToHex_eq (arr.getD (0 + 10) 0) (hb (0 + 10)), byteToHex_eq (arr.getD (0 + 11) 0) (hb (0 + 11)), byteToHex_eq (arr.getD (0 + 12) 0) (hb (0 + 12)), byteToHex_eq (arr.getD (0 + 13) 0) (hb (0 + 13)), byteToHex_eq (arr.getD (0 + 14) 0) (hb (0 + 14)), byteToHex_eq (arr.getD (0 + 15) 0) (hb (0 + 15))]
  show isValidUUIDList _ = true
  simp only [List.cons_append, List.nil_append]
  unfold isValidUUIDList
  simp only [hhi, hlo, Bool.and_true, Bool.true_and]
  decide



lemma filter_hex (c : Char) (hc : isHexChar c = true) (rest : List Char) :
    List.filter (fun x => x ≠ '-') (c :: rest) =
      c :: List.filter (fun x => x ≠ '-') rest := by
  rw [List.filter_cons]
  simp [isHexChar_ne_hyphen c hc]

lemma filter_hyphen (rest : List Char) :
    List.filter (fun x => x ≠ '-') ('-' :: rest) =
      List.filter (fun x => x ≠ '-') rest := by
  rw [List.filter_cons]
  simp

set_option maxHeartbeats 2000000 in
lemma parse_unsafeStringify (arr : List Nat) (h : ∀ b ∈ arr, b < 256) :
    parse (unsafeStringify arr) = some [arr.getD 0 0, arr.getD 1 0, arr.getD 2 0, arr.getD 3 0, arr.getD 4 0, arr.getD 5 0, arr.getD 6 0, arr.getD 7 0, arr.getD 8 0, arr.getD 9 0, arr.getD 10 0, arr.getD 11 0, arr.getD 12 0, arr.getD 13 0, arr.getD 14 0, arr.getD 15 0] := by
  have hb := getD_lt256 arr h
  have hhi : ∀ i : Nat, isHexChar (hexDigit (arr.getD i 0 / 16)) = true := fun i =>
    isHexChar_hexDigit _ (by have := hb i; omega)
  have hlo : ∀ i : Nat, isHexChar (hexDigit (arr.getD i 0 % 16)) = true := fun i =>
    isHexChar_hexDigit _ (Nat.mod_lt _ (by omega))
  have hv1 : ∀ i : Nat, hexVal (hexDigit (arr.getD i 0 / 16)) = arr.getD i 0 / 16 := fun i =>
    hexVal_hexDigit _ (by have := hb i; omega)
  have hv2 : ∀ i : Nat, hexVal (hexDigit (arr.getD i 0 % 16)) = arr.getD i 0 % 16 := fun i =>
    hexVal_hexDigit _ (Nat.mod_lt _ (by omega))
  have hdm : ∀ i : Nat, arr.getD i 0 / 16 * 16 + arr.getD i 0 % 16 = arr.getD i 0 := fun i => by
    omega
  unfold parse
  rw [if_pos (isValid_unsafeStringify arr h)]
  refine congrArg some ?_
  unfold unsafeStringify
  simp only [Nat.zero_add]
  rw [byteToHex_eq (arr.getD 0 0) (hb 0), byteToHex_eq (arr.getD 1 0) (hb 1), byteToHex_eq (arr.getD 2 0) (hb 2), byteToHex_eq (arr.getD 3 0) (hb 3), byteToHex_eq (arr.getD 4 0) (hb 4), byteToHex_eq (arr.getD 5 0) (hb 5), byteToHex_eq (arr.getD 6 0) (hb 6), byteToHex_eq (arr.getD 7 0) (hb 7), byteToHex_eq (arr.getD 8 0) (hb 8), byteToHex_eq (arr.getD 9 0) (hb 9), byteToHex_eq (arr.getD 10 0) (hb 10), byteToHex_eq (arr.getD 11 0) (hb 11), byteToHex_eq (arr.getD 12 0) (hb 12), byteToHex_eq (arr.getD 13 0) (hb 13), byteToHex_eq (arr.getD 14 0) (hb 14), byteToHex_eq (arr.getD 15 0) (hb 15)]
  simp only [List.cons_append, List.nil_append]
  rw [filter_hex _ (hhi 0),
    filter_hex _ (hlo 0),
    filter_hex _ (hhi 1),
    filter_hex _ (hlo 1),
    filter_hex _ (hhi 2),
    filter_hex _ (hlo 2),
    filter_hex _ (hhi 3),
    filter_hex _ (hlo 3),
    filter_hyphen,
    filter_hex _ (hhi 4),
    filter_hex _ (hlo 4),
    filter_hex _ (hhi 5),
    filter_hex _ (hlo 5),
    filter_hyphen,
    filter_hex _ (hhi 6),
    filter_hex _ (hlo 6),
    filter_hex _ (hhi 7),
    filter_hex _ (hlo 7),
    filter_hyphen,
    filter_hex _ (hhi 8),
    filter_hex _ (hlo 8),
    filter_hex _ (hhi 9),
    filter_hex _ (hlo 9),
    filter_hyphen,
    filter_hex _ (hhi 10),
    filter_hex _ (hlo 10),
    filter_hex _ (hhi 11),
    filter_hex _ (hlo 11),
    filter_hex _ (hhi 12),
    filter_hex _ (hlo 12),
    filter_hex _ (hhi 13),
    filter_hex _ (hlo 13),
    filter_hex _ (hhi 14),
    filter_hex _ (hlo 14),
    filter_hex _ (hhi 15),
    filter_hex _ (hlo 15)]
  simp only [List.filter_nil]
  simp only [hexPairs]
  simp only [hv1, hv2, hdm]




lemma getD_list_eq (arr : List Nat) (h : arr.length = 16) :
    [arr.getD 0 0, arr.getD 1 0, arr.getD 2 0, arr.getD 3 0, arr.getD 4 0,
     arr.getD 5 0, arr.getD 6 0, arr.getD 7 0, arr.getD 8 0, arr.getD 9 0,
     arr.getD 10 0, arr.getD 11 0, arr.getD 12 0, arr.getD 13 0,
     arr.getD 14 0, arr.getD 15 0] = arr := by
  rcases arr with _ | ⟨a0, arr⟩
  · simp at h
  rcases arr with _ | ⟨a1, arr⟩
  · simp at h
  rcases arr with _ | ⟨a2, arr⟩
  · simp at h
  rcases arr with _ | ⟨a3, arr⟩
  · simp at h
  rcases arr with _ | ⟨a4, arr⟩
  · simp at h
  rcases arr with _ | ⟨a5, arr⟩
  · simp at h
  rcases arr with _ | ⟨a6, arr⟩
  · simp at h
  rcases arr with _ | ⟨a7, arr⟩
  · simp at h
  rcases arr with _ | ⟨a8, arr⟩
  · simp at h
  rcases arr with _ | ⟨a9, arr⟩
  · simp at h
  rcases arr with _ | ⟨a10, arr⟩
  · simp at h
  rcases arr with _ | ⟨a11, arr⟩
  · simp at h
  rcases arr with _ | ⟨a12, arr⟩
  · simp at h
  rcases arr with _ | ⟨a13, arr⟩
  · simp at h
  rcases arr with _ | ⟨a14, arr⟩
  · simp at h
  rcases arr with _ | ⟨a15, arr⟩
  · simp at h
  rcases arr with _ | ⟨a16, arr⟩
  · rfl
  · simp at h

lemma parse_stringify (arr : List Nat) (hlen : arr.length = 16)
    (hb : ∀ b ∈ arr, b < 256) :
    parse (unsafeStringify arr) = some arr := by
  rw [parse_unsafeStringify arr hb, getD_list_eq arr hlen]

lemma stringify_eq (arr : List Nat) (hb : ∀ b ∈ arr, b < 256) :
    stringify arr = some (unsafeStringify arr) := by
  unfold stringify
  rw [if_pos (isValid_unsafeStringify arr hb)]

lemma byteToHex_hexVal (c d : Char) (hc : isHexChar c = true)
    (hd : isHexChar d = true) :
    byteToHex (hexVal c * 16 + hexVal d) = [lowerChar c, lowerChar d] := by
  have h1 := hexVal_lt c hc
  have h2 := hexVal_lt d hd
  rw [byteToHex_eq _ (by omega)]
  have e1 : (hexVal c * 16 + hexVal d) / 16 = hexVal c := by omega
  have e2 : (hexVal c * 16 + hexVal d) % 16 = hexVal d := by omega
  rw [e1, e2, hexDigit_hexVal c hc, hexDigit_hexVal d hd]

lemma lowerChar_hyphen : lowerChar '-' = '-' := by decide


lemma unsafeStringify_eq (b0 b1 b2 b3 b4 b5 b6 b7 b8 b9 b10 b11 b12 b13 b14 b15 : Nat) :
    unsafeStringify [b0, b1, b2, b3, b4, b5, b6, b7, b8, b9, b10, b11, b12, b13, b14, b15] =
      String.mk (byteToHex b0 ++ byteToHex b1 ++ byteToHex b2 ++ byteToHex b3 ++ ['-'] ++ byteToHex b4 ++ byteToHex b5 ++ ['-'] ++ byteToHex b6 ++ byteToHex b7 ++ ['-'] ++ byteToHex b8 ++ byteToHex b9 ++ ['-'] ++ byteToHex b10 ++ byteToHex b11 ++ byteToHex b12 ++ byteToHex b13 ++ byteToHex b14 ++ byteToHex b15) := rfl


set_option maxHeartbeats 2000000 in
lemma unsafeStringify_parse (u : String) (h : isValidUUID u = true) :
    Option.map (fun b => unsafeStringify b) (parse u) = some (lowerStr u) := by
  obtain ⟨l⟩ := u
  have hv := h
  have h2 : isValidUUIDList l = true := h
  rcases l with _ | ⟨a0, l⟩
  · exact absurd h2 Bool.false_ne_true
  rcases l with _ | ⟨a1, l⟩
  · exact absurd h2 Bool.false_ne_true
  rcases l with _ | ⟨a2, l⟩
  · exact absurd h2 Bool.false_ne_true
  rcases l with _ | ⟨a3, l⟩
  · exact absurd h2 Bool.false_ne_true
  rcases l with _ | ⟨a4, l⟩
  · exact absurd h2 Bool.false_ne_true
  rcases l with _ | ⟨a5, l⟩
  · exact absurd h2 Bool.false_ne_true
  rcases l with _ | ⟨a6, l⟩
  · exact absurd h2 Bool.false_ne_true
  rcases l with _ | ⟨a7, l⟩
  · exact absurd h2 Bool.false_ne_true
  rcases l with _ | ⟨g1, l⟩
  · exact absurd h2 Bool.false_ne_true
  rcases l with _ | ⟨b0, l⟩
  · exact absurd h2 Bool.false_ne_true
  rcases l with _ | ⟨b1, l⟩
  · exact absurd h2 Bool.false_ne_true
  rcases l with _ | ⟨b2, l⟩
  · exact absurd h2 Bool.false_ne_true
  rcases l with _ | ⟨b3, l⟩
  · exact absurd h2 Bool.false_ne_true
  rcases l with _ | ⟨g2, l⟩
  · exact absurd h2 Bool.false_ne_true
  rcases l with _ | ⟨c0, l⟩
  · exact absurd h2 Bool.false_ne_true
  rcases l with _ | ⟨c1, l⟩
  · exact absurd h2 Bool.false_ne_true
  rcases l with _ | ⟨c2, l⟩
  · exact absurd h2 Bool.false_ne_true
  rcases l with _ | ⟨c3, l⟩
  · exact absurd h2 Bool.false_ne_true
  rcases l with _ | ⟨g3, l⟩
  · exact absurd h2 Bool.false_ne_true
  rcases l with _ | ⟨d0, l⟩
  · exact absurd h2 Bool.false_ne_true
  rcases l with _ | ⟨d1, l⟩
  · exact absurd h2 Bool.false_ne_true
  rcases l with _ | ⟨d2, l⟩
  · exact absurd h2 Bool.false_ne_true
  rcases l with _ | ⟨d3, l⟩
  · exact absurd h2 Bool.false_ne_true
  rcases l with _ | ⟨g4, l⟩
  · exact absurd h2 Bool.false_ne_true
  rcases l with _ | ⟨e0, l⟩
  · exact absurd h2 Bool.false_ne_true
  rcases l with _ | ⟨e1, l⟩
  · exact absurd h2 Bool.false_ne_true
  rcases l with _ | ⟨e2, l⟩
  · exact absurd h2 Bool.false_ne_true
  rcases l with _ | ⟨e3, l⟩
  · exact absurd h2 Bool.false_ne_true
  rcases l with _ | ⟨e4, l⟩
  · exact absurd h2 Bool.false_ne_true
  rcases l with _ | ⟨e5, l⟩
  · exact absurd h2 Bool.false_ne_true
  rcases l with _ | ⟨e6, l⟩
  · exact absurd h2 Bool.false_ne_true
  rcases l with _ | ⟨e7, l⟩
  · exact absurd h2 Bool.false_ne_true
  rcases l with _ | ⟨e8, l⟩
  · exact absurd h2 Bool.false_ne_true
  rcases l with _ | ⟨e9, l⟩
  · exact absurd h2 Bool.false_ne_true
  rcases l with _ | ⟨e10, l⟩
  · exact absurd h2 Bool.false_ne_true
  rcases l with _ | ⟨e11, l⟩
  · exact absurd h2 Bool.false_ne_true
  rcases l with _ | ⟨z, l⟩
  swap
  · exact absurd h2 Bool.false_ne_true
  unfold isValidUUIDList at h2
  simp only [Bool.and_eq_true, beq_iff_eq] at h2
  obtain ⟨⟨⟨⟨⟨⟨⟨⟨⟨⟨⟨⟨⟨⟨⟨⟨⟨⟨⟨⟨⟨⟨⟨⟨⟨⟨⟨⟨⟨⟨⟨⟨⟨⟨⟨hxa0, hxa1⟩, hxa2⟩, hxa3⟩, hxa4⟩, hxa5⟩, hxa6⟩, hxa7⟩, hyg1⟩, hxb0⟩, hxb1⟩, hxb2⟩, hxb3⟩, hyg2⟩, hxc0⟩, hxc1⟩, hxc2⟩, hxc3⟩, hyg3⟩, hxd0⟩, hxd1⟩, hxd2⟩, hxd3⟩, hyg4⟩, hxe0⟩, hxe1⟩, hxe2⟩, hxe3⟩, hxe4⟩, hxe5⟩, hxe6⟩, hxe7⟩, hxe8⟩, hxe9⟩, hxe10⟩, hxe11⟩ := h2
  subst hyg1; subst hyg2; subst hyg3; subst hyg4
  unfold parse
  rw [if_pos hv]
  refine congrArg some ?_
  rw [filter_hex _ hxa0,
    filter_hex _ hxa1,
    filter_hex _ hxa2,
    filter_hex _ hxa3,
    filter_hex _ hxa4,
    filter_hex _ hxa5,
    filter_hex _ hxa6,
    filter_hex _ hxa7,
    filter_hyphen,
    filter_hex _ hxb0,
    filter_hex _ hxb1,
    filter_hex _ hxb2,
    filter_hex _ hxb3,
    filter_hyphen,
    filter_hex _ hxc0,
    filter_hex _ hxc1,
    filter_hex _ hxc2,
    filter_hex _ hxc3,
    filter_hyphen,
    filter_hex _ hxd0,
    filter_hex _ hxd1,
    filter_hex _ hxd2,
    filter_hex _ hxd3,
    filter_hyphen,
    filter_hex _ hxe0,
    filter_hex _ hxe1,
    filter_hex _ hxe2,
    filter_hex _ hxe3,
    filter_hex _ hxe4,
    filter_hex _ hxe5,
    filter_hex _ hxe6,
    filter_hex _ hxe7,
    filter_hex _ hxe8,
    filter_hex _ hxe9,
    filter_hex _ hxe10,
    filter_hex _ hxe11]
  simp only [List.filter_nil]
  simp only [hexPairs]
  rw [unsafeStringify_eq]
  rw [byteToHex_hexVal a0 a1 hxa0 hxa1, byteToHex_hexVal a2 a3 hxa2 hxa3, byteToHex_hexVal a4 a5 hxa4 hxa5, byteToHex_hexVal a6 a7 hxa6 hxa7, byteToHex_hexVal b0 b1 hxb0 hxb1, byteToHex_hexVal b2 b3 hxb2 hxb3, byteToHex_hexVal c0 c1 hxc0 hxc1, byteToHex_hexVal c2 c3 hxc2 hxc3, byteToHex_hexVal d0 d1 hxd0 hxd1, byteToHex_hexVal d2 d3 hxd2 hxd3, byteToHex_hexVal e0 e1 hxe0 hxe1, byteToHex_hexVal e2 e3 hxe2 hxe3, byteToHex_hexVal e4 e5 hxe4 hxe5, byteToHex_hexVal e6 e7 hxe6 hxe7, byteToHex_hexVal e8 e9 hxe8 hxe9, byteToHex_hexVal e10 e11 hxe10 hxe11]
  unfold lowerStr
  simp only [List.map_cons, List.map_nil, lowerChar_hyphen]
  simp only [List.cons_append, List.nil_append]


end WsVless.Uuid

namespace WsVless

/-- **C10**: UUID byte/string conversion round-trips. For every 16-byte
array, `unsafeStringify` produces a string accepted by `isValidUUID`, so
`stringify` returns it instead of throwing, and `parse` recovers exactly the
original bytes; conversely, for every string accepted by `isValidUUID`,
`parse` succeeds and `unsafeStringify` of the parsed bytes is the lowercased
input string. -/
theorem c10_uuid_roundtrip (arr : List Nat) (u : String)
    (hlen : arr.length = 16) (hb : ∀ b ∈ arr, b < 256)
    (hu : Uuid.isValidUUID u = true) :
    Uuid.isValidUUID (Uuid.unsafeStringify arr) = true ∧
    Uuid.stringify arr = some (Uuid.unsafeStringify arr) ∧
    Uuid.parse (Uuid.unsafeStringify arr) = some arr ∧
    Option.map (fun b => Uuid.unsafeStringify b) (Uuid.parse u) =
      some (lowerStr u) :=
  ⟨Uuid.isValid_unsafeStringify arr hb, Uuid.stringify_eq arr hb,
   Uuid.parse_stringify arr hlen hb, Uuid.unsafeStringify_parse u hu⟩

/-- Witness for C10 at a concrete byte array and a concrete mixed-case
UUID string. -/
theorem c10_uuid_roundtrip_witness :
    (([0, 17, 34, 51, 68, 85, 102, 119, 136, 153, 170, 187, 204, 221, 238,
        255] : List Nat).length = 16 ∧
      (∀ b ∈ ([0, 17, 34, 51, 68, 85, 102, 119, 136, 153, 170, 187, 204,
        221, 238, 255] : List Nat), b < 256) ∧
      Uuid.isValidUUID "ABCDEF01-2345-6789-ABCD-EF0123456789" = true) ∧
    (Uuid.isValidUUID (Uuid.unsafeStringify [0, 17, 34, 51, 68, 85, 102,
        119, 136, 153, 170, 187, 204, 221, 238, 255]) = true ∧
      Uuid.stringify [0, 17, 34, 51, 68, 85, 102, 119, 136, 153, 170, 187,
        204, 221, 238, 255] = some (Uuid.unsafeStringify [0, 17, 34, 51, 68,
        85, 102, 119, 136, 153, 170, 187, 204, 221, 238, 255]) ∧
      Uuid.parse (Uuid.unsafeStringify [0, 17, 34, 51, 68, 85, 102, 119,
        136, 153, 170, 187, 204, 221, 238, 255]) = some [0, 17, 34, 51, 68,
        85, 102, 119, 136, 153, 170, 187, 204, 221, 238, 255] ∧
      Option.map (fun b => Uuid.unsafeStringify b)
          (Uuid.parse "ABCDEF01-2345-6789-ABCD-EF0123456789") =
        some (lowerStr "ABCDEF01-2345-6789-ABCD-EF0123456789")) :=
  ⟨⟨by decide, by decide, by decide⟩,
   c10_uuid_roundtrip
     [0, 17, 34, 51, 68, 85, 102, 119, 136, 153, 170, 187, 204, 221, 238,
       255] "ABCDEF01-2345-6789-ABCD-EF0123456789"
     (by decide) (by decide) (by decide)⟩

end WsVless

namespace WsVless

/-- Witness for C6: a fresh session answers a stranger Keep for id 5 with
exactly one End frame and records 5 as ended; from the state recording id 0
as ended, a short trace of Keep, End and KeepAlive frames for id 0 produces
no further End frame. -/
theorem c6_duplicate_end_suppression_witness :
    ((initMuxState none).closed = false ∧
      lookupConn (initMuxState none) 5 = none ∧
      (initMuxState none).endedSessions.contains 5 = false ∧
      (muxStep (initMuxState none) (.keep 5 [])).2 = [.endFrame 5] ∧
      5 ∈ (muxStep (initMuxState none) (.keep 5 [])).1.endedSessions) ∧
    (0 ∈ (muxStep (initMuxState none) (.keep 0 [])).1.endedSessions ∧
      (muxStep (initMuxState none) (.keep 0 [])).1.endedSessions.length +
        ([MuxEvent.keep 0 [], MuxEvent.endConn 0 [], MuxEvent.keepAlive] :
          List MuxEvent).length ≤ 256 ∧
      (∀ e ∈ ([MuxEvent.keep 0 [], MuxEvent.endConn 0 [], MuxEvent.keepAlive] :
          List MuxEvent), c6Allowed 0 e = true) ∧
      countEnds 0 (muxRun (muxStep (initMuxState none) (.keep 0 [])).1
        [MuxEvent.keep 0 [], MuxEvent.endConn 0 [], MuxEvent.keepAlive]).2 = 0) :=
  ⟨⟨by decide, by decide, by decide,
    (c6_duplicate_end_suppression.1 (initMuxState none) 5 []
      (by decide) (by decide) (by decide)).1,
    (c6_duplicate_end_suppression.1 (initMuxState none) 5 []
      (by decide) (by decide) (by decide)).2⟩,
   ⟨by decide, by decide, by decide,
    c6_duplicate_end_suppression.2 (muxStep (initMuxState none) (.keep 0 [])).1 0
      [MuxEvent.keep 0 [], MuxEvent.endConn 0 [], MuxEvent.keepAlive]
      (by decide) (by decide) (by decide)⟩⟩

end WsVless
